import Mathlib

/-! # AutoKickAFK (squad-server/plugins/auto-kick-afk.js)

A shallow embedding of the plugin's constructor body: the run-condition
evaluator `runConditions`, the reconciler `updateTrackingList`, the per-player
timer pair created by `trackPlayer`, `untrackPlayer`, the two event handlers
and the cleanup callback, over an explicit state (the `betweenRounds` flag,
the `trackedPlayers` object, the runtime's table of live timers, the clock,
the log of rcon actions and the record of rejected `untrackPlayer` calls).

Conventions.
* JavaScript numbers that the plugin reads are integers here (`Int`); a value
  that may also be `undefined`, `NaN` or a boolean is a `Prim`. The divisions
  of the warn callback are also modelled on doubles (`roundDouble`).
* A steamID is a string; the ids the server reports are 17-digit SteamID64
  numerals, which are neither array indices nor names inherited from
  `Object.prototype`, so on `trackedPlayers` the operator `in` is membership
  among the own keys.
* `trackedPlayers` is an association list in insertion order, which is the
  order `Object.keys` enumerates such keys in.
* The `async` arrow functions of the plugin contain no `await`, so a call runs
  its whole body synchronously and hands back a promise; a `TypeError` thrown
  inside one becomes a rejected promise and the caller carries on.
* `Logger.verbose` calls are not modelled.
-/

namespace AutoKickAFK

/-! ## Primitive values and the relational operator -/

/-- Primitive JavaScript values that can reach the comparisons in `runConditions`. -/
inductive Prim where
  | undefined
  | nan
  | bool (b : Bool)
  | num (n : Int)
  deriving DecidableEq, Repr

/-- ToNumber on primitives; `none` stands for `NaN`. -/
def Prim.toNumber : Prim → Option Int
  | .undefined => none
  | .nan => none
  | .bool b => some (if b then 1 else 0)
  | .num n => some n

/-- The operator `a < b` on primitives: both sides go through ToNumber, and a
comparison with `NaN` is `false`. -/
def jsLt (a b : Prim) : Bool :=
  match a.toNumber, b.toNumber with
  | some x, some y => decide (x < y)
  | _, _ => false

/-- The operator `a + b` on non-string primitives. -/
def jsAdd (a b : Prim) : Prim :=
  match a.toNumber, b.toNumber with
  | some x, some y => .num (x + y)
  | _, _ => .nan

/-! ## Options, players, server -/

/-- The `options` object handed to the constructor. `playerThreshold` is the
key documented in `optionsSpecification`; `playerCountThreshold` is the key
`runConditions` reads. -/
structure Options where
  warningMessage : String
  kickMessage : String
  frequencyOfWarnings : Int
  afkTimer : Int
  playerThreshold : Prim
  playerCountThreshold : Prim
  queueThreshold : Prim
  roundStartDelay : Int
  deriving DecidableEq, Repr

/-- One element of `server.players`; `squadID = none` is JavaScript `null`. -/
structure Player where
  steamID : String
  squadID : Option Nat
  deriving DecidableEq, Repr

/-- What the plugin reads from `server`: the roster `server.players`, the value
of `server.players.count`, `server.publicQueue` and `server.reserveQueue`.
Lines 98 and 138 use `server.players` as an array, and an array has no
property `count`: on such a roster `playersCount` is `undefined`. -/
structure Server where
  players : List Player
  playersCount : Prim
  publicQueue : Prim
  reserveQueue : Prim
  deriving DecidableEq, Repr

/-- Line 84. `0 < a < b` parses as `(0 < a) < b`, the inner result being a
boolean that the outer `<` converts to 0 or 1. -/
def runConditions (betweenRounds : Bool) (options : Options) (server : Server) : Bool :=
  !betweenRounds
    || jsLt (.bool (jsLt (.num 0) options.playerCountThreshold)) server.playersCount
    || jsLt (.bool (jsLt (.num 0) options.queueThreshold))
         (jsAdd server.publicQueue server.reserveQueue)

/-- The field `this.kickTimeout` (line 61). -/
def kickTimeout (options : Options) : Int := options.afkTimer * 60 * 1000

/-- The field `this.warningInterval` (line 62). -/
def warningInterval (options : Options) : Int := options.frequencyOfWarnings * 1000

/-- The field `this.gracePeriod` (line 63). -/
def gracePeriod (options : Options) : Int := options.roundStartDelay * 60 * 1000

/-! ## Objects, the timer table and the plugin state -/

/-- The JavaScript objects the plugin creates and stores. -/
inductive JSObj where
  /-- The Timeout object returned by `setInterval` / `setTimeout`. -/
  | timeout (handle : Nat)
  /-- The array literal `[a, b]`. -/
  | pair (fst snd : JSObj)
  /-- The promise returned by a call of an `async` function whose body returned `value`. -/
  | promise (value : JSObj)
  deriving DecidableEq, Repr

/-- Property read `obj[i]` on an object; `none` is `undefined`. Only an array
has indexed properties: a promise and a Timeout object have none. -/
def JSObj.index : JSObj → Nat → Option JSObj
  | .pair a _, 0 => some a
  | .pair _ b, 1 => some b
  | _, _ => none

/-- The callbacks the plugin registers with the timer service. -/
inductive Callback where
  /-- The function `updateTrackingList`, registered on line 132. -/
  | tick
  /-- The cleanup arrow function, lines 136-140. -/
  | cleanup
  /-- The arrow function of lines 72-74 that resets `betweenRounds`. -/
  | grace
  /-- The warn arrow function of lines 112-117, closed over `steamID` and `trackStart`. -/
  | warn (steamID : String) (trackStart : Nat)
  /-- The kick arrow function of lines 119-121, closed over `steamID`. -/
  | kick (steamID : String)
  deriving DecidableEq, Repr

/-- A live timer of the runtime: `period = some p` for `setInterval`. -/
structure Timer where
  handle : Nat
  callback : Callback
  due : Nat
  period : Option Nat
  deriving DecidableEq, Repr

/-- An rcon action issued by a callback, with the clock value at which it was issued. -/
inductive Action where
  | warn (time : Nat) (steamID : String) (message : String)
  | kick (time : Nat) (steamID : String) (message : String)
  deriving DecidableEq, Repr

/-- The mutable state: the fields of `this`, the runtime's live timers, the
next fresh timer handle, the clock (`Date.now()`), the rcon actions issued so
far (oldest first), and the steamIDs of the `untrackPlayer` calls whose promise
was rejected (oldest first). -/
structure State where
  betweenRounds : Bool
  trackedPlayers : List (String × JSObj)
  timers : List Timer
  nextHandle : Nat
  now : Nat
  actions : List Action
  rejections : List String
  deriving DecidableEq, Repr

/-- The call `Object.keys(obj)`. -/
def keys (obj : List (String × JSObj)) : List String := obj.map Prod.fst

/-- The operator `key in obj` on the `trackedPlayers` object. -/
def hasKey (obj : List (String × JSObj)) (key : String) : Bool :=
  (keys obj).contains key

/-- Property read `obj[key]`; `none` is `undefined`. -/
def getKey (obj : List (String × JSObj)) (key : String) : Option JSObj :=
  (obj.find? (fun e => e.1 == key)).map Prod.snd

/-- Assignment `obj[key] = value`: an existing key keeps its place, a new key goes last. -/
def setKey (obj : List (String × JSObj)) (key : String) (value : JSObj) :
    List (String × JSObj) :=
  if hasKey obj key then obj.map (fun e => if e.1 == key then (key, value) else e)
  else obj ++ [(key, value)]

/-- The statement `delete obj[key]`. -/
def deleteKey (obj : List (String × JSObj)) (key : String) : List (String × JSObj) :=
  obj.filter (fun e => e.1 != key)

/-- The delay the runtime uses for a requested delay `ms`: a value outside
`1 .. 2^31 - 1` is replaced by 1. -/
def timerDelay (ms : Int) : Nat :=
  if 1 ≤ ms ∧ ms ≤ 2147483647 then ms.toNat else 1

/-- The call `setInterval(callback, ms)`: registers a repeating timer and returns its Timeout object. -/
def setInterval (s : State) (callback : Callback) (ms : Int) : State × JSObj :=
  ({ s with
      timers := s.timers ++
        [{ handle := s.nextHandle, callback := callback,
           due := s.now + timerDelay ms, period := some (timerDelay ms) }]
      nextHandle := s.nextHandle + 1 },
   .timeout s.nextHandle)

/-- The call `setTimeout(callback, ms)`: registers a one-shot timer and returns its Timeout object. -/
def setTimeout (s : State) (callback : Callback) (ms : Int) : State × JSObj :=
  ({ s with
      timers := s.timers ++
        [{ handle := s.nextHandle, callback := callback,
           due := s.now + timerDelay ms, period := none }]
      nextHandle := s.nextHandle + 1 },
   .timeout s.nextHandle)

/-- The calls `clearInterval(x)` and `clearTimeout(x)`: removes the timer when `x` is a
Timeout object and does nothing for any other argument, `undefined` included. -/
def clearTimer (s : State) (x : Option JSObj) : State :=
  match x with
  | some (.timeout h) => { s with timers := s.timers.filter (fun t => t.handle != h) }
  | _ => s

/-- How a call of an `async` function settles. -/
inductive Settled where
  | fulfilled
  | rejected
  deriving DecidableEq, Repr

/-- Lines 109-123. The body runs synchronously; the caller receives the promise
of the array `[warnTimerID, kickTimerID]`, not the array. -/
def trackPlayer (options : Options) (s : State) (steamID : String) : State × JSObj :=
  let trackStart := s.now
  let w := setInterval s (.warn steamID trackStart) (warningInterval options)
  let k := setTimeout w.1 (.kick steamID) (kickTimeout options)
  (k.1, .promise (.pair w.2 k.2))

/-- Lines 125-130. When `this.trackedPlayers[steamID]` is `undefined` the read
of its property `0` throws a TypeError: the promise is rejected, which the
state records, and no field of `this` and no timer is changed. -/
def untrackPlayer (s : State) (steamID : String) : State × Settled :=
  match getKey s.trackedPlayers steamID with
  | none => ({ s with rejections := s.rejections ++ [steamID] }, .rejected)
  | some entry =>
    let s1 := clearTimer s (entry.index 0)
    let s2 := clearTimer s1 (entry.index 1)
    ({ s2 with trackedPlayers := deleteKey s2.trackedPlayers steamID }, .fulfilled)

/-- The body of the loop of lines 98-106 for one roster element. -/
def visitPlayer (options : Options) (s : State) (player : Player) : State :=
  let isTracked := hasKey s.trackedPlayers player.steamID
  let isUnassigned := player.squadID.isNone
  let s1 :=
    if isUnassigned && !isTracked then
      let r := trackPlayer options s player.steamID
      { r.1 with trackedPlayers := setKey r.1.trackedPlayers player.steamID r.2 }
    else s
  if !isUnassigned && isTracked then (untrackPlayer s1 player.steamID).1 else s1

/-- Lines 87-107. -/
def updateTrackingList (options : Options) (server : Server) (s : State) : State :=
  if !runConditions s.betweenRounds options server then
    (keys s.trackedPlayers).foldl (fun st steamID => (untrackPlayer st steamID).1) s
  else
    server.players.foldl (visitPlayer options) s

/-- Lines 69-75, the `NEW_GAME` handler. -/
def onNewGame (options : Options) (server : Server) (s : State) : State :=
  let s1 := { s with betweenRounds := true }
  let s2 := updateTrackingList options server s1
  (setTimeout s2 .grace (gracePeriod options)).1

/-- Lines 77-81, the `PLAYER_SQUAD_CHANGE` handler. -/
def onPlayerSquadChange (s : State) (player : Player) : State :=
  if hasKey s.trackedPlayers player.steamID && player.squadID.isSome then
    (untrackPlayer s player.steamID).1
  else s

/-! ## The cleanup callback -/

/-- The operator `!x` on a string: only the empty string is falsy. -/
def jsNotString (x : String) : Bool := x.data.isEmpty

/-- ToPropertyKey of a boolean. -/
def boolKey (b : Bool) : String := if b then "true" else "false"

/-- The value of a string of decimal digits. -/
def digitsValue (cs : List Char) : Nat :=
  cs.foldl (fun n c => 10 * n + (c.toNat - 48)) 0

/-- Whether `key` is the canonical decimal spelling of an index below `len`. -/
def isArrayIndex (key : String) (len : Nat) : Bool :=
  match key.data with
  | [] => false
  | c :: cs =>
    (c :: cs).all Char.isDigit && (c != '0' || cs.isEmpty) && decide (digitsValue (c :: cs) < len)

/-- Property names an array answers to besides its indices: `length` and the
names on `Array.prototype` and `Object.prototype`. -/
def arrayPropertyNames : List String :=
  ["length", "constructor", "at", "concat", "copyWithin", "fill", "find", "findIndex",
   "findLast", "findLastIndex", "lastIndexOf", "pop", "push", "reverse", "shift", "unshift",
   "slice", "sort", "splice", "includes", "indexOf", "join", "keys", "entries", "values",
   "forEach", "filter", "flat", "flatMap", "map", "every", "some", "reduce", "reduceRight",
   "toLocaleString", "toString", "toReversed", "toSorted", "toSpliced", "with",
   "hasOwnProperty", "isPrototypeOf", "propertyIsEnumerable", "valueOf", "__proto__",
   "__defineGetter__", "__defineSetter__", "__lookupGetter__", "__lookupSetter__"]

/-- The operator `key in array` for an array of the given length: a test on
property names, not on the elements. -/
def inArray (key : String) (array : List String) : Bool :=
  isArrayIndex key array.length || arrayPropertyNames.contains key

/-- The condition of line 138, `!steamID in server.players.map(p => p.steamID)`,
which parses as `(!steamID) in (...)`. -/
def cleanupCondition (server : Server) (steamID : String) : Bool :=
  inArray (boolKey (jsNotString steamID)) (server.players.map (fun p => p.steamID))

/-- Lines 136-140, the cleanup callback. -/
def cleanupScan (server : Server) (s : State) : State :=
  (keys s.trackedPlayers).foldl
    (fun st steamID => if cleanupCondition server steamID then (untrackPlayer st steamID).1 else st) s

/-! ## Timer callbacks and the event loop -/

/-- ToInt32, the conversion the operator `<<` applies to its left operand. -/
def toInt32 (n : Int) : Int :=
  if n % 4294967296 < 2147483648 then n % 4294967296 else n % 4294967296 - 4294967296

/-- Lines 113-116, with the minutes and seconds as integer expressions:
`msLeft/1000/60` truncated by `<< 0` is the quotient of `msLeft` by 60000
rounded toward zero, and `Math.floor((msLeft/1000) % 60)` is the floor of a
thousandth of its remainder by 60000 (sign of the dividend). The computation
on doubles is `warnMinutes` and `warnSeconds` below; `warn_time_double` proves
that the two agree for `0 ≤ msLeft < 2^31 * 60000`. -/
def warnMessage (options : Options) (now trackStart : Nat) : String :=
  let msLeft : Int := kickTimeout options - ((now : Int) - (trackStart : Int))
  let min : Int := toInt32 (msLeft.tdiv 60000)
  let sec : Int := (msLeft.tmod 60000) / 1000
  options.warningMessage ++ " - " ++ toString min ++ ":" ++ toString sec

/-- Runs the body of a registered callback. -/
def runCallback (options : Options) (server : Server) (s : State) : Callback → State
  | .tick => updateTrackingList options server s
  | .cleanup => cleanupScan server s
  | .grace => { s with betweenRounds := false }
  | .warn steamID trackStart =>
    { s with actions := s.actions ++ [.warn s.now steamID (warnMessage options s.now trackStart)] }
  | .kick steamID =>
    { s with actions := s.actions ++ [.kick s.now steamID options.kickMessage] }

/-- The timer with handle `h` fires, if it is live: the clock moves to its due
time if that lies ahead, a one-shot timer leaves the table, a repeating timer
is re-armed one period after the fire, and the callback runs. -/
def fire (options : Options) (server : Server) (s : State) (h : Nat) : State :=
  match s.timers.find? (fun t => t.handle == h) with
  | none => s
  | some t =>
    let now := max s.now t.due
    let timers :=
      match t.period with
      | some p => s.timers.map (fun u => if u.handle == h then { u with due := now + p } else u)
      | none => s.timers.filter (fun u => u.handle != h)
    runCallback options server { s with now := now, timers := timers } t.callback

/-- What the event loop delivers to the plugin. -/
inductive Event where
  /-- The server emits `NEW_GAME`. -/
  | newGame (server : Server)
  /-- The server emits `PLAYER_SQUAD_CHANGE` with this player. -/
  | playerSquadChange (player : Player)
  /-- The timer with this handle fires while the server is in this state. -/
  | fire (handle : Nat) (server : Server)
  /-- The clock reaches `t`. -/
  | clock (t : Nat)
  deriving DecidableEq, Repr

/-- One turn of the event loop. -/
def step (options : Options) (s : State) : Event → State
  | .newGame server => onNewGame options server s
  | .playerSquadChange player => onPlayerSquadChange s player
  | .fire h server => fire options server s h
  | .clock t => { s with now := max s.now t }

/-- The state the constructor leaves (lines 58-141), built at clock value `t0`:
the reconciliation interval has handle 0 and the cleanup interval handle 1. -/
def construct (t0 : Nat) : State :=
  let s0 : State :=
    { betweenRounds := false, trackedPlayers := [], timers := [], nextHandle := 0,
      now := t0, actions := [], rejections := [] }
  let s1 := (setInterval s0 .tick (1 * 60 * 1000)).1
  (setInterval s1 .cleanup (20 * 60 * 1000)).1

/-- Runs a sequence of events. -/
def run (options : Options) (s : State) (events : List Event) : State :=
  events.foldl (step options) s

/-- States the plugin can be in after construction and any sequence of events. -/
def Reachable (options : Options) (s : State) : Prop :=
  ∃ t0 events, s = run options (construct t0) events

/-- Number of live warn timers for `steamID`. -/
def liveWarnTimers (s : State) (steamID : String) : Nat :=
  (s.timers.filter (fun t =>
    match t.callback with
    | .warn i _ => i == steamID
    | _ => false)).length

/-- Number of live kick timers for `steamID`. -/
def liveKickTimers (s : State) (steamID : String) : Nat :=
  (s.timers.filter (fun t =>
    match t.callback with
    | .kick i => i == steamID
    | _ => false)).length

/-- The registry/timer invariant of the specification: a tracked id has one
live warn timer and one live kick timer, an untracked id has none. -/
def TimerInvariant (s : State) : Prop :=
  ∀ steamID : String,
    (hasKey s.trackedPlayers steamID = true →
      liveWarnTimers s steamID = 1 ∧ liveKickTimers s steamID = 1) ∧
    (hasKey s.trackedPlayers steamID = false →
      liveWarnTimers s steamID = 0 ∧ liveKickTimers s steamID = 0)

/-- The rcon actions addressed to `steamID`. -/
def actionsFor (s : State) (steamID : String) : List Action :=
  s.actions.filter (fun a =>
    match a with
    | .warn _ i _ => i == steamID
    | .kick _ i _ => i == steamID)

/-! ## The specification's evaluator and sample data -/

/-- The formula of section 4.3 of the specification, in its own words:
not between rounds, or the population override, or the queue override, each
override being a threshold above zero and a simple greater-than comparison. -/
def shouldTrackSpec (betweenRounds : Bool) (playerCountThreshold queueThreshold : Int)
    (playerCount publicQueue reserveQueue : Nat) : Bool :=
  !betweenRounds
    || (decide (playerCountThreshold > 0) && decide ((playerCount : Int) > playerCountThreshold))
    || (decide (queueThreshold > 0)
          && decide (((publicQueue + reserveQueue : Nat) : Int) > queueThreshold))

/-- The defaults of `optionsSpecification` (lines 13-56); it has no key
`playerCountThreshold`, so that property reads as `undefined`. -/
def defaultOptions : Options :=
  { warningMessage := "Join a squad, you are are unassigned and will be kicked"
    kickMessage := "Unassigned - automatically removed"
    frequencyOfWarnings := 30
    afkTimer := 6
    playerThreshold := .num 93
    playerCountThreshold := .undefined
    queueThreshold := .num (-1)
    roundStartDelay := 15 }

/-- Options with both thresholds set to the documented disabling value -1,
under the documented key and under the key the code reads. -/
def disabledOptions : Options :=
  { defaultOptions with playerThreshold := .num (-1), playerCountThreshold := .num (-1) }

/-- A server with one unassigned player "a" and one player waiting in the public queue. -/
def queuedServer : Server :=
  { players := [{ steamID := "a", squadID := none }]
    playersCount := .num 1, publicQueue := .num 1, reserveQueue := .num 0 }

/-- A server with one unassigned player "a" and empty queues. -/
def loneServer : Server :=
  { players := [{ steamID := "a", squadID := none }]
    playersCount := .num 1, publicQueue := .num 0, reserveQueue := .num 0 }

/-- A server with roster "a" (unassigned) and "b" (squad 1) and empty queues. -/
def pairServer : Server :=
  { players := [{ steamID := "a", squadID := none }, { steamID := "b", squadID := some 1 }]
    playersCount := .num 2, publicQueue := .num 0, reserveQueue := .num 0 }

/-- A server with one unassigned player "a" whose player count reads 0, with empty queues. -/
def quietServer : Server :=
  { players := [{ steamID := "a", squadID := none }]
    playersCount := .num 0, publicQueue := .num 0, reserveQueue := .num 0 }

/-- A server whose roster is empty. -/
def emptyServer : Server :=
  { players := [], playersCount := .num 0, publicQueue := .num 0, reserveQueue := .num 0 }

/-- The state after construction at clock 0 and the first reconciliation tick
(clock 60000) over `loneServer`: "a" is tracked. -/
def trackedState : State :=
  run defaultOptions (construct 0) [.fire 0 loneServer]

/-- The state `trackedState` after the first warning (clock 90000), with the
clock moved on to 105000. -/
def warnedState : State :=
  run defaultOptions trackedState [.fire 2 loneServer, .clock 105000]

/-- The state `trackedState` after a `PLAYER_SQUAD_CHANGE` for "a" with squad 7. -/
def squadJoinedState : State :=
  run defaultOptions (construct 0)
    [.fire 0 loneServer, .playerSquadChange { steamID := "a", squadID := some 7 }]

/-- The state after construction at clock 0 in which "b" was visited while unassigned. -/
def trackedB : State :=
  visitPlayer defaultOptions (construct 0) { steamID := "b", squadID := none }

/-- The state `trackedState` with `betweenRounds` set. -/
def trackedBetweenRounds : State :=
  { trackedState with betweenRounds := true }

/-! ## Construction, remaining time and further sample states -/

/-- The constructor (lines 58-141) as a fallible computation. Its body has no
`throw` and checks no option, so for options of the right types it always
returns the plugin. -/
def constructPlugin (_options : Options) (t0 : Nat) : Except String State :=
  .ok (construct t0)

/-- Line 113: `this.kickTimeout - (Date.now() - trackStart)`. -/
def msLeft (options : Options) (now trackStart : Nat) : Int :=
  kickTimeout options - ((now : Int) - (trackStart : Int))

/-- Options whose two durations are zero. -/
def zeroOptions : Options :=
  { defaultOptions with afkTimer := 0, frequencyOfWarnings := 0 }

/-- Construction at clock 0, `NEW_GAME` at clock 0, a second `NEW_GAME` at
clock 600000 (the grace timers have handles 2 and 3). -/
def secondRoundState : State :=
  run defaultOptions (construct 0)
    [.newGame emptyServer, .clock 600000, .newGame emptyServer]

/-- The state `secondRoundState` after the first round's grace timer has fired. -/
def firstGraceFiredState : State :=
  run defaultOptions secondRoundState [.fire 2 emptyServer]

/-- The delay of the warn interval that `trackPlayer` registers. -/
def warnDelay (options : Options) : Nat := timerDelay (warningInterval options)

/-- The delay of the kick timeout that `trackPlayer` registers. -/
def kickDelay (options : Options) : Nat := timerDelay (kickTimeout options)

/-- The warn action issued `k` warn periods after `trackStart`. -/
def warnAction (options : Options) (steamID : String) (trackStart k : Nat) : Action :=
  .warn (trackStart + k * warnDelay options) steamID
    (warnMessage options (trackStart + k * warnDelay options) trackStart)

/-- The state in which the first reconciliation tick after construction at
clock 0 starts its callback: the clock is 60000 and the tick is re-armed. -/
def tickFiredState : State :=
  { construct 0 with
    now := 60000
    timers :=
      [{ handle := 0, callback := .tick, due := 120000, period := some 60000 },
       { handle := 1, callback := .cleanup, due := 1200000, period := some 1200000 }] }

/-- The timers of `trackedState` fired on time over `loneServer` up to the
kick of "a" at clock 420000: the warn timer (handle 2) every 30000 ms from
90000 to 390000, the reconciliation tick (handle 0) every 60000 ms from 120000
to 420000, then the kick timer (handle 3). -/
def eventsToKick : List Event :=
  [2, 0, 2, 2, 0, 2, 2, 0, 2, 2, 0, 2, 2, 0, 2, 2, 0, 3].map (fun h => Event.fire h loneServer)

/-- The events `eventsToKick` followed by the warn timer at 420000 and 450000,
the tick at 480000 and the warn timer at 480000. -/
def eventsPastKick : List Event :=
  eventsToKick ++ [2, 2, 0, 2].map (fun h => Event.fire h loneServer)

/-- The state `trackedState` after the timers have fired on time up to and
including the kick of "a". -/
def kickedState : State :=
  run defaultOptions trackedState eventsToKick

/-- The state `kickedState` after three further firings of the warn timer of "a". -/
def warnedAfterKickState : State :=
  run defaultOptions trackedState eventsPastKick

/-- A roster of 51 players in squad 1, as the array `server.players`: its
property `count` is `undefined`; the queues are empty. -/
def crowdedServer : Server :=
  { players := (List.range 51).map
      (fun i => { steamID := toString (76561198000000000 + i), squadID := some 1 })
    playersCount := .undefined, publicQueue := .num 0, reserveQueue := .num 0 }

/-- A server whose roster lists "a" twice, first unassigned, then in squad 1. -/
def duplicateServer : Server :=
  { players := [{ steamID := "a", squadID := none }, { steamID := "a", squadID := some 1 }]
    playersCount := .num 2, publicQueue := .num 0, reserveQueue := .num 0 }

/-- Construction at clock 0, then a reconciliation tick, a `NEW_GAME` and a
cleanup tick over `duplicateServer`. -/
def duplicateRosterState : State :=
  run defaultOptions (construct 0)
    [.fire 0 duplicateServer, .newGame duplicateServer, .fire 1 duplicateServer]

/-! ## Double-precision arithmetic of the warn callback -/

/-- Rounding of a rational to the nearest integer, ties to the even one. -/
def roundHalfEven (r : ℚ) : ℤ :=
  if r - ⌊r⌋ < 1 / 2 then ⌊r⌋
  else if 1 / 2 < r - ⌊r⌋ then ⌊r⌋ + 1
  else if ⌊r⌋ % 2 = 0 then ⌊r⌋ else ⌊r⌋ + 1

/-- The double nearest to `q` (53-bit significand, round to nearest, ties to
even): `q` is scaled so that its significand lies between 2^52 and 2^53, is
rounded to an integer and is scaled back. The exponent is not bounded, which
differs from IEEE 754 only below 2^-1022 and above 2^1023. -/
def roundDouble (q : ℚ) : ℚ :=
  if q = 0 then 0
  else (roundHalfEven (q * (2 : ℚ) ^ (52 - Int.log 2 |q|)) : ℚ) * (2 : ℚ) ^ (Int.log 2 |q| - 52)

/-- The operator `a / b` on doubles. -/
def jsDiv (a b : ℚ) : ℚ := roundDouble (a / b)

/-- Truncation toward zero, the first step of ToInt32. -/
def truncate (q : ℚ) : ℤ := if 0 ≤ q then ⌊q⌋ else ⌈q⌉

/-- The operator `a % b` on doubles: the remainder has the sign of the
dividend and is exact. -/
def jsRem (a b : ℚ) : ℚ := a - b * (truncate (a / b) : ℚ)

/-- Line 114 on doubles: `Math.floor((msLeft/1000/60) << 0)`; the shift yields
an integer, which `Math.floor` returns unchanged. -/
def warnMinutes (msLeft : Int) : Int :=
  toInt32 (truncate (jsDiv (jsDiv (msLeft : ℚ) 1000) 60))

/-- Line 115 on doubles: `Math.floor((msLeft/1000) % 60)`. -/
def warnSeconds (msLeft : Int) : Int :=
  ⌊jsRem (jsDiv (msLeft : ℚ) 1000) 60⌋

/-! ## On-time runs of the timers -/

/-- Whether `t` is the warn timer or the kick timer of `steamID`. -/
def timerOf (steamID : String) (t : Timer) : Bool :=
  match t.callback with
  | .warn i _ => i == steamID
  | .kick i => i == steamID
  | _ => false

/-- The warn actions addressed to `steamID`, oldest first. -/
def warnsFor (s : State) (steamID : String) : List Action :=
  s.actions.filter (fun a =>
    match a with
    | .warn _ i _ => i == steamID
    | .kick _ _ _ => false)

/-- The kick actions addressed to `steamID`, oldest first. -/
def kicksFor (s : State) (steamID : String) : List Action :=
  s.actions.filter (fun a =>
    match a with
    | .warn _ _ _ => false
    | .kick _ i _ => i == steamID)

/-- Whether the timer with handle `h` is live and no live timer is due before it. -/
def dueFirst (s : State) (h : Nat) : Bool :=
  match s.timers.find? (fun t => t.handle == h) with
  | none => false
  | some t => s.timers.all (fun u => decide (t.due ≤ u.due))

/-- Whether no roster entry of `server` shows `steamID` in a squad. -/
def keepsTracked (steamID : String) (server : Server) : Bool :=
  server.players.all (fun p => p.steamID != steamID || p.squadID.isNone)

/-- Whether the event is a step of an on-time run in which `steamID` is not
untracked: a timer fires when no live timer is due before it (timers due at
the same instant may fire in either order) and the roster does not show
`steamID` in a squad, or the clock moves on without passing a due time. -/
def onTimeEvent (steamID : String) (s : State) : Event → Bool
  | .fire h server => dueFirst s h && keepsTracked steamID server
  | .clock t => s.timers.all (fun u => decide (t ≤ u.due))
  | _ => false

/-- Whether every event of the list is a step of an on-time run from `s`. -/
def onTime (options : Options) (steamID : String) : State → List Event → Bool
  | _, [] => true
  | s, e :: es => onTimeEvent steamID s e && onTime options steamID (step options s e) es

/-- Whether the stored entry is a promise, as every entry line 103 stores is. -/
def isPromise : JSObj → Bool
  | .promise _ => true
  | _ => false

/-- The condition on a state in which line 103 starts tracking `steamID` for
the first time: not between rounds, `steamID` not a key and without a live
timer, every entry a promise, timer handles distinct and below the next fresh
handle, no timer overdue. -/
def readyToTrack (steamID : String) (s : State) : Bool :=
  !s.betweenRounds
    && !hasKey s.trackedPlayers steamID
    && s.timers.all (fun t => !timerOf steamID t)
    && s.trackedPlayers.all (fun e => isPromise e.2)
    && decide ((s.timers.map (fun t => t.handle)).Nodup)
    && s.timers.all (fun t => decide (t.handle < s.nextHandle))
    && s.timers.all (fun t => decide (s.now ≤ t.due))

/-- The part of the on-time invariant that does not count firings: not between
rounds, `steamID` a key, every entry a promise, timer handles distinct and
below the next fresh handle, no timer overdue. -/
structure Sound (steamID : String) (r : State) : Prop where
  flag : r.betweenRounds = false
  key : hasKey r.trackedPlayers steamID = true
  promises : ∀ e ∈ r.trackedPlayers, isPromise e.2 = true
  nodup : (r.timers.map (fun t => t.handle)).Nodup
  fresh : ∀ t ∈ r.timers, t.handle < r.nextHandle
  due : ∀ t ∈ r.timers, r.now ≤ t.due

/-- The invariant of an on-time run after `steamID` was tracked at clock `t0`
with warn handle `h` and kick handle `h + 1`, starting from the actions of
`base`: `j` warnings have been issued, `c` tells whether the kick has been. -/
structure Tracking (options : Options) (steamID : String) (t0 h : Nat) (base r : State)
    (j : Nat) (c : Bool) : Prop where
  sound : Sound steamID r
  own : r.timers.filter (timerOf steamID)
    = { handle := h, callback := .warn steamID t0, due := t0 + (j + 1) * warnDelay options,
        period := some (warnDelay options) } ::
      (if c then [] else
        [{ handle := h + 1, callback := .kick steamID, due := t0 + kickDelay options,
           period := none }])
  warns : warnsFor r steamID
    = warnsFor base steamID ++ (List.range' 1 j).map (warnAction options steamID t0)
  kicks : kicksFor r steamID
    = kicksFor base steamID ++
      (if c then [.kick (t0 + kickDelay options) steamID options.kickMessage] else [])
  clock : t0 + j * warnDelay options ≤ r.now
  kicked : c = true → t0 + kickDelay options ≤ r.now

end AutoKickAFK

namespace AutoKickAFK

/-! ## Lemmas on the `trackedPlayers` object -/

theorem hasKey_iff (obj : List (String × JSObj)) (k : String) :
    hasKey obj k = true ↔ ∃ e ∈ obj, e.1 = k := by
  simp [hasKey, keys]

theorem hasKey_deleteKey (obj : List (String × JSObj)) (k k' : String) :
    hasKey (deleteKey obj k) k' = (hasKey obj k' && (k' != k)) := by
  rw [Bool.eq_iff_iff]
  simp only [hasKey_iff, deleteKey, List.mem_filter, Bool.and_eq_true, bne_iff_ne, ne_eq]
  constructor
  · rintro ⟨e, ⟨he, hne⟩, rfl⟩
    exact ⟨⟨e, he, rfl⟩, hne⟩
  · rintro ⟨⟨e, he, rfl⟩, hne⟩
    exact ⟨e, ⟨he, hne⟩, rfl⟩

theorem hasKey_append_single (obj : List (String × JSObj)) (k k' : String) (v : JSObj) :
    hasKey (obj ++ [(k, v)]) k' = (hasKey obj k' || (k' == k)) := by
  rw [Bool.eq_iff_iff]
  simp only [hasKey_iff, List.mem_append, List.mem_singleton, Bool.or_eq_true, beq_iff_eq]
  constructor
  · rintro ⟨e, he | he, rfl⟩
    · exact Or.inl ⟨e, he, rfl⟩
    · exact Or.inr (by rw [he])
  · rintro (⟨e, he, rfl⟩ | h)
    · exact ⟨e, Or.inl he, rfl⟩
    · exact ⟨(k, v), Or.inr rfl, h.symm⟩

theorem deleteKey_of_not_hasKey (obj : List (String × JSObj)) (k : String)
    (h : hasKey obj k = false) : deleteKey obj k = obj := by
  unfold deleteKey
  rw [List.filter_eq_self]
  intro e he
  rw [bne_iff_ne]
  intro hk
  have : hasKey obj k = true := (hasKey_iff obj k).2 ⟨e, he, hk⟩
  rw [h] at this
  exact Bool.noConfusion this

theorem getKey_eq_none_iff (obj : List (String × JSObj)) (k : String) :
    getKey obj k = none ↔ hasKey obj k = false := by
  unfold getKey
  rw [Option.map_eq_none', List.find?_eq_none, ← Bool.not_eq_true, hasKey_iff]
  constructor
  · rintro h ⟨e, he, hk⟩
    exact h e he (by simpa using hk)
  · intro h e he hk
    exact h ⟨e, he, by simpa using hk⟩

/-! ## Lemmas on `clearTimer`, `trackPlayer` and `untrackPlayer` -/

theorem clearTimer_trackedPlayers (s : State) (x : Option JSObj) :
    (clearTimer s x).trackedPlayers = s.trackedPlayers := by
  unfold clearTimer; split <;> rfl

theorem clearTimer_betweenRounds (s : State) (x : Option JSObj) :
    (clearTimer s x).betweenRounds = s.betweenRounds := by
  unfold clearTimer; split <;> rfl

theorem clearTimer_nextHandle (s : State) (x : Option JSObj) :
    (clearTimer s x).nextHandle = s.nextHandle := by
  unfold clearTimer; split <;> rfl

theorem clearTimer_timers_sublist (s : State) (x : Option JSObj) :
    (clearTimer s x).timers.Sublist s.timers := by
  unfold clearTimer; split
  · exact List.filter_sublist _
  · exact List.Sublist.refl _

theorem untrackPlayer_trackedPlayers (s : State) (steamID : String) :
    (untrackPlayer s steamID).1.trackedPlayers = deleteKey s.trackedPlayers steamID := by
  unfold untrackPlayer
  cases h : getKey s.trackedPlayers steamID with
  | none =>
    exact (deleteKey_of_not_hasKey _ _ ((getKey_eq_none_iff _ _).1 h)).symm
  | some entry =>
    simp only [clearTimer_trackedPlayers]

theorem untrackPlayer_betweenRounds (s : State) (steamID : String) :
    (untrackPlayer s steamID).1.betweenRounds = s.betweenRounds := by
  unfold untrackPlayer
  cases h : getKey s.trackedPlayers steamID with
  | none => rfl
  | some entry => simp only [clearTimer_betweenRounds]

theorem untrackPlayer_nextHandle (s : State) (steamID : String) :
    (untrackPlayer s steamID).1.nextHandle = s.nextHandle := by
  unfold untrackPlayer
  cases h : getKey s.trackedPlayers steamID with
  | none => rfl
  | some entry => simp only [clearTimer_nextHandle]

theorem untrackPlayer_timers_sublist (s : State) (steamID : String) :
    (untrackPlayer s steamID).1.timers.Sublist s.timers := by
  unfold untrackPlayer
  cases h : getKey s.trackedPlayers steamID with
  | none => exact List.Sublist.refl _
  | some entry =>
    exact (clearTimer_timers_sublist _ _).trans (clearTimer_timers_sublist _ _)

theorem trackPlayer_trackedPlayers (options : Options) (s : State) (steamID : String) :
    (trackPlayer options s steamID).1.trackedPlayers = s.trackedPlayers := rfl

theorem trackPlayer_betweenRounds (options : Options) (s : State) (steamID : String) :
    (trackPlayer options s steamID).1.betweenRounds = s.betweenRounds := rfl

/-! ## Lemmas on one roster visit -/

theorem visitPlayer_betweenRounds (options : Options) (s : State) (p : Player) :
    (visitPlayer options s p).betweenRounds = s.betweenRounds := by
  unfold visitPlayer
  cases hu : p.squadID.isNone <;> cases ht : hasKey s.trackedPlayers p.steamID <;>
    simp [untrackPlayer_betweenRounds, trackPlayer_betweenRounds]

theorem visitPlayer_hasKey_self (options : Options) (s : State) (p : Player) :
    hasKey (visitPlayer options s p).trackedPlayers p.steamID = p.squadID.isNone := by
  unfold visitPlayer
  cases hu : p.squadID.isNone <;> cases ht : hasKey s.trackedPlayers p.steamID <;>
    simp [untrackPlayer_trackedPlayers, trackPlayer_trackedPlayers, hasKey_deleteKey, setKey,
      hasKey_append_single, ht]

theorem visitPlayer_hasKey_other (options : Options) (s : State) (p : Player) (k : String)
    (hk : k ≠ p.steamID) :
    hasKey (visitPlayer options s p).trackedPlayers k = hasKey s.trackedPlayers k := by
  unfold visitPlayer
  cases hu : p.squadID.isNone <;> cases ht : hasKey s.trackedPlayers p.steamID <;>
    simp [untrackPlayer_trackedPlayers, trackPlayer_trackedPlayers, hasKey_deleteKey, setKey,
      hasKey_append_single, ht, hk]

theorem visitPlayer_eq_self (options : Options) (s : State) (p : Player)
    (h : hasKey s.trackedPlayers p.steamID = p.squadID.isNone) :
    visitPlayer options s p = s := by
  unfold visitPlayer
  cases hu : p.squadID.isNone <;> simp [h, hu]

/-! ## Lemmas on the two loops of `updateTrackingList` -/

theorem foldl_untrack_trackedPlayers (ks : List String) (s : State) :
    (ks.foldl (fun st steamID => (untrackPlayer st steamID).1) s).trackedPlayers
      = s.trackedPlayers.filter (fun e => !ks.contains e.1) := by
  induction ks generalizing s with
  | nil => simp
  | cons k ks ih =>
    rw [List.foldl_cons, ih, untrackPlayer_trackedPlayers, deleteKey, List.filter_filter]
    congr 1
    funext e
    simp only [List.contains_cons, Bool.not_or]
    rw [Bool.and_comm]
    rfl

theorem foldl_untrack_betweenRounds (ks : List String) (s : State) :
    (ks.foldl (fun st steamID => (untrackPlayer st steamID).1) s).betweenRounds
      = s.betweenRounds := by
  induction ks generalizing s with
  | nil => rfl
  | cons k ks ih => rw [List.foldl_cons, ih, untrackPlayer_betweenRounds]

theorem foldl_untrack_nextHandle (ks : List String) (s : State) :
    (ks.foldl (fun st steamID => (untrackPlayer st steamID).1) s).nextHandle = s.nextHandle := by
  induction ks generalizing s with
  | nil => rfl
  | cons k ks ih => rw [List.foldl_cons, ih, untrackPlayer_nextHandle]

theorem foldl_untrack_timers_sublist (ks : List String) (s : State) :
    (ks.foldl (fun st steamID => (untrackPlayer st steamID).1) s).timers.Sublist s.timers := by
  induction ks generalizing s with
  | nil => exact List.Sublist.refl _
  | cons k ks ih =>
    rw [List.foldl_cons]
    exact (ih _).trans (untrackPlayer_timers_sublist s k)

theorem foldl_untrack_keys (s : State) :
    ((keys s.trackedPlayers).foldl (fun st steamID => (untrackPlayer st steamID).1) s).trackedPlayers
      = [] := by
  rw [foldl_untrack_trackedPlayers, List.filter_eq_nil_iff]
  intro e he
  have : e.1 ∈ keys s.trackedPlayers := List.mem_map_of_mem Prod.fst he
  simp [this]

theorem foldl_visit_betweenRounds (options : Options) (ps : List Player) (s : State) :
    (ps.foldl (visitPlayer options) s).betweenRounds = s.betweenRounds := by
  induction ps generalizing s with
  | nil => rfl
  | cons q ps ih => rw [List.foldl_cons, ih, visitPlayer_betweenRounds]

theorem foldl_visit_hasKey_other (options : Options) (ps : List Player) (s : State) (k : String)
    (hk : k ∉ ps.map (fun p => p.steamID)) :
    hasKey (ps.foldl (visitPlayer options) s).trackedPlayers k = hasKey s.trackedPlayers k := by
  induction ps generalizing s with
  | nil => rfl
  | cons q ps ih =>
    rw [List.map_cons, List.mem_cons, not_or] at hk
    rw [List.foldl_cons, ih _ hk.2, visitPlayer_hasKey_other _ _ _ _ hk.1]

theorem foldl_visit_hasKey (options : Options) (ps : List Player) (s : State)
    (hnd : (ps.map (fun p => p.steamID)).Nodup) :
    ∀ p ∈ ps, hasKey (ps.foldl (visitPlayer options) s).trackedPlayers p.steamID
      = p.squadID.isNone := by
  induction ps generalizing s with
  | nil => intro p hp; cases hp
  | cons q ps ih =>
    rw [List.map_cons, List.nodup_cons] at hnd
    intro p hp
    rw [List.foldl_cons]
    rcases List.mem_cons.1 hp with rfl | hp
    · rw [foldl_visit_hasKey_other _ _ _ _ hnd.1, visitPlayer_hasKey_self]
    · exact ih _ hnd.2 p hp

theorem foldl_visit_eq_self (options : Options) (ps : List Player) (s : State)
    (h : ∀ p ∈ ps, hasKey s.trackedPlayers p.steamID = p.squadID.isNone) :
    ps.foldl (visitPlayer options) s = s := by
  induction ps with
  | nil => rfl
  | cons q ps ih =>
    rw [List.foldl_cons, visitPlayer_eq_self _ _ _ (h q (List.mem_cons_self _ _))]
    exact ih (fun p hp => h p (List.mem_cons_of_mem _ hp))

theorem updateTrackingList_betweenRounds (options : Options) (server : Server) (s : State) :
    (updateTrackingList options server s).betweenRounds = s.betweenRounds := by
  unfold updateTrackingList
  split
  · exact foldl_untrack_betweenRounds _ _
  · exact foldl_visit_betweenRounds _ _ _

/-! ## Run conditions -/

/-- C1 (code evaluated at the failing input). Between rounds, with the player
threshold at -1, the queue threshold at 5 and two players queued,
`runConditions` returns true although the specification's formula gives false:
`0 < 5 < 2` is evaluated as `(0 < 5) < 2`, that is `1 < 2`. -/
theorem runConditions_chained_queue_comparison :
    runConditions true
        { defaultOptions with playerCountThreshold := .num (-1), queueThreshold := .num 5 }
        { players := [], playersCount := .num 0, publicQueue := .num 2, reserveQueue := .num 0 }
      = true
    ∧ shouldTrackSpec true (-1) 5 0 2 0 = false := by
  constructor <;> decide

/-- C8 (code evaluated at the failing input). Between rounds, with both
thresholds at the disabling value -1 and one player in the public queue,
`runConditions` returns true: `0 < -1 < 1` is evaluated as `false < 1`. -/
theorem runConditions_disabled_thresholds_true :
    runConditions true disabledOptions
        { players := [], playersCount := .num 0, publicQueue := .num 1, reserveQueue := .num 0 }
      = true := by
  decide

/-- C9 (code evaluated at the failing input). With the documented option
`playerThreshold` set to 50, a roster of 51 players, empty queues and
`betweenRounds` true, `runConditions` returns false: line 84 reads
`server.players.count`, which is `undefined` on the roster array, so the
population comparison is false whatever threshold is configured, under the
documented key or under the key `playerCountThreshold` that line 84 reads. -/
theorem runConditions_ignores_population :
    crowdedServer.players.length = 51
    ∧ runConditions true { defaultOptions with playerThreshold := .num 50 } crowdedServer = false
    ∧ runConditions true
        { defaultOptions with playerThreshold := .num 50, playerCountThreshold := .num 50 }
        crowdedServer = false
    ∧ ∀ threshold : Prim, jsLt (.bool (jsLt (.num 0) threshold)) .undefined = false := by
  refine ⟨by decide, by decide, by decide, ?_⟩
  intro threshold
  cases jsLt (.num 0) threshold <;> rfl

/-! ## The cleanup callback never untracks -/

theorem cleanupCondition_false (server : Server) (steamID : String) :
    cleanupCondition server steamID = false := by
  unfold cleanupCondition inArray
  cases jsNotString steamID <;> rfl

theorem foldl_const_id {α β : Type} (f : β → α → β) (l : List α) (b : β)
    (h : ∀ b a, f b a = b) : l.foldl f b = b := by
  induction l generalizing b with
  | nil => rfl
  | cons a l ih => rw [List.foldl_cons, h, ih]

theorem cleanupScan_eq (server : Server) (s : State) : cleanupScan server s = s := by
  unfold cleanupScan
  apply foldl_const_id
  intro b a
  simp [cleanupCondition_false]

/-- C7 (code evaluated at the failing input). With "a" tracked and an empty
roster the cleanup callback leaves "a" in `trackedPlayers`, called directly or
through its timer (handle 1): the condition of line 138 is false for every id
and every roster, so the scan changes nothing. -/
theorem cleanupScan_keeps_absent_player :
    hasKey trackedState.trackedPlayers "a" = true
    ∧ hasKey (cleanupScan emptyServer trackedState).trackedPlayers "a" = true
    ∧ hasKey (run defaultOptions trackedState [.fire 1 emptyServer]).trackedPlayers "a" = true
    ∧ ∀ (server : Server) (s : State), cleanupScan server s = s := by
  refine ⟨by decide, by decide, by decide, cleanupScan_eq⟩

/-! ## Untracking and the live timers -/

/-- C2 (code evaluated at the failing input). The first reconciliation tick
(clock 60000) starts tracking "a" and the first warning is issued at 90000;
at 105000, 45000 ms after the start, `untrackPlayer("a")` is called and
fulfils, removing the key, yet both timers stay live: the stored entry is the
promise returned by `trackPlayer`, whose properties `0` and `1` are
`undefined`. The warn timer then fires at 120000 and the kick timer at 420000,
each issuing its rcon action for "a". -/
theorem untrackPlayer_leaves_timers_live :
    getKey warnedState.trackedPlayers "a" = some (.promise (.pair (.timeout 2) (.timeout 3)))
    ∧ (untrackPlayer warnedState "a").2 = .fulfilled
    ∧ hasKey (untrackPlayer warnedState "a").1.trackedPlayers "a" = false
    ∧ (untrackPlayer warnedState "a").1.timers = warnedState.timers
    ∧ actionsFor (untrackPlayer warnedState "a").1 "a" =
        [.warn 90000 "a" "Join a squad, you are are unassigned and will be kicked - 5:30"]
    ∧ actionsFor (run defaultOptions (untrackPlayer warnedState "a").1
          [.fire 2 loneServer, .fire 3 loneServer]) "a" =
        [.warn 90000 "a" "Join a squad, you are are unassigned and will be kicked - 5:30",
         .warn 120000 "a" "Join a squad, you are are unassigned and will be kicked - 5:0",
         .kick 420000 "a" "Unassigned - automatically removed"]
    ∧ hasKey (run defaultOptions (untrackPlayer warnedState "a").1
          [.fire 2 loneServer, .fire 3 loneServer]).trackedPlayers "a" = false := by
  decide

/-- C6 (code evaluated at the failing input). After the first reconciliation
tick has tracked "a" and a `PLAYER_SQUAD_CHANGE` for "a" with squad 7 has
untracked it, the reachable state has "a" outside `trackedPlayers` with one
live warn timer and one live kick timer, so the invariant fails there. -/
theorem reachable_state_breaks_timer_invariant :
    Reachable defaultOptions squadJoinedState
    ∧ hasKey squadJoinedState.trackedPlayers "a" = false
    ∧ liveWarnTimers squadJoinedState "a" = 1
    ∧ liveKickTimers squadJoinedState "a" = 1
    ∧ ¬ TimerInvariant squadJoinedState := by
  refine ⟨⟨0, _, rfl⟩, by decide, by decide, by decide, ?_⟩
  intro h
  exact absurd ((h "a").2 (by decide)).1 (by decide)

/-! ## Round start -/

/-- C10 (code evaluated at the failing input). With both thresholds at -1, one
player in the public queue and the unassigned player "a" in the roster, the
`NEW_GAME` handler leaves `betweenRounds` true but `trackedPlayers` is not
empty: `runConditions` is true there, so the pass walks the roster and starts
tracking "a" instead of clearing. A second `NEW_GAME` keeps "a" tracked. -/
theorem onNewGame_disabled_thresholds_tracks :
    (onNewGame disabledOptions queuedServer (construct 0)).betweenRounds = true
    ∧ keys (onNewGame disabledOptions queuedServer (construct 0)).trackedPlayers = ["a"]
    ∧ liveKickTimers (onNewGame disabledOptions queuedServer (construct 0)) "a" = 1
    ∧ keys (onNewGame disabledOptions queuedServer
          (onNewGame disabledOptions queuedServer (construct 0))).trackedPlayers = ["a"] := by
  decide

/-! ## Reconciliation -/

/-- C3. With a roster that lists each steamID at most once, a second run of
`updateTrackingList` directly after a first one, on the same server state,
leaves the whole plugin state as the first run left it: the same
`trackedPlayers` with the same entries, no timer created or cleared. -/
theorem updateTrackingList_idempotent (options : Options) (server : Server) (s : State)
    (hnd : (server.players.map (fun p => p.steamID)).Nodup) :
    updateTrackingList options server (updateTrackingList options server s)
      = updateTrackingList options server s := by
  have hb := updateTrackingList_betweenRounds options server s
  generalize hs1 : updateTrackingList options server s = s1 at hb
  cases hrun : runConditions s.betweenRounds options server with
  | false =>
    have hempty : s1.trackedPlayers = [] := by
      rw [← hs1]; unfold updateTrackingList; rw [hrun]; exact foldl_untrack_keys s
    unfold updateTrackingList
    rw [hb, hrun, hempty]
    rfl
  | true =>
    have hkeys : ∀ p ∈ server.players,
        hasKey s1.trackedPlayers p.steamID = p.squadID.isNone := by
      rw [← hs1]; unfold updateTrackingList; rw [hrun]
      exact foldl_visit_hasKey options server.players s hnd
    unfold updateTrackingList
    rw [hb, hrun]
    exact foldl_visit_eq_self options server.players s1 hkeys

/-- Witness for C3: roster "a" (unassigned) and "b" (squad 1), starting from
the state `trackedB` in which "b" had been tracked while unassigned. -/
theorem updateTrackingList_idempotent_witness :
    (pairServer.players.map (fun p => p.steamID)).Nodup
    ∧ updateTrackingList defaultOptions pairServer
        (updateTrackingList defaultOptions pairServer trackedB)
      = updateTrackingList defaultOptions pairServer trackedB :=
  ⟨by decide, updateTrackingList_idempotent _ _ _ (by decide)⟩

/-- C4. When `runConditions` is true and the roster lists each steamID at most
once, after `updateTrackingList` every roster player with `squadID === null`
is a key of `trackedPlayers` and every roster player with another `squadID`
is not. -/
theorem updateTrackingList_tracks_unassigned (options : Options) (server : Server) (s : State)
    (hrun : runConditions s.betweenRounds options server = true)
    (hnd : (server.players.map (fun p => p.steamID)).Nodup) :
    ∀ p ∈ server.players,
      (p.squadID = none →
        hasKey (updateTrackingList options server s).trackedPlayers p.steamID = true) ∧
      (p.squadID ≠ none →
        hasKey (updateTrackingList options server s).trackedPlayers p.steamID = false) := by
  intro p hp
  have h : hasKey (updateTrackingList options server s).trackedPlayers p.steamID
      = p.squadID.isNone := by
    unfold updateTrackingList; rw [hrun]
    exact foldl_visit_hasKey options server.players s hnd p hp
  rw [h]
  cases p.squadID <;> simp

/-- Witness for C4: not between rounds, roster "a" (unassigned) and "b"
(squad 1), "b" tracked beforehand. -/
theorem updateTrackingList_tracks_unassigned_witness :
    runConditions trackedB.betweenRounds defaultOptions pairServer = true
    ∧ (pairServer.players.map (fun p => p.steamID)).Nodup
    ∧ hasKey trackedB.trackedPlayers "b" = true
    ∧ ∀ p ∈ pairServer.players,
        (p.squadID = none →
          hasKey (updateTrackingList defaultOptions pairServer trackedB).trackedPlayers
            p.steamID = true) ∧
        (p.squadID ≠ none →
          hasKey (updateTrackingList defaultOptions pairServer trackedB).trackedPlayers
            p.steamID = false) :=
  ⟨by decide, by decide, by decide,
    updateTrackingList_tracks_unassigned _ _ _ (by decide) (by decide)⟩

/-- C5. When `runConditions` is false, after `updateTrackingList` the object
`trackedPlayers` is empty and the pass has started no tracking: no timer
handle was allocated and every live timer was live before. -/
theorem updateTrackingList_clears_when_not_running (options : Options) (server : Server)
    (s : State) (hrun : runConditions s.betweenRounds options server = false) :
    (updateTrackingList options server s).trackedPlayers = []
    ∧ (updateTrackingList options server s).nextHandle = s.nextHandle
    ∧ (updateTrackingList options server s).timers.Sublist s.timers := by
  unfold updateTrackingList
  rw [hrun]
  exact ⟨foldl_untrack_keys s, foldl_untrack_nextHandle _ s, foldl_untrack_timers_sublist _ s⟩

/-- Witness for C5: between rounds with the player count at 0 and empty
queues, "a" tracked beforehand and still unassigned in the roster. -/
theorem updateTrackingList_clears_when_not_running_witness :
    runConditions trackedBetweenRounds.betweenRounds defaultOptions quietServer = false
    ∧ keys trackedBetweenRounds.trackedPlayers = ["a"]
    ∧ (updateTrackingList defaultOptions quietServer trackedBetweenRounds).trackedPlayers = []
    ∧ (updateTrackingList defaultOptions quietServer trackedBetweenRounds).nextHandle
        = trackedBetweenRounds.nextHandle
    ∧ (updateTrackingList defaultOptions quietServer trackedBetweenRounds).timers.Sublist
        trackedBetweenRounds.timers :=
  ⟨by decide, by decide, updateTrackingList_clears_when_not_running _ _ _ (by decide)⟩

/-! ## Round start, overlapping grace periods -/

/-- C11 (code evaluated at the failing input). `NEW_GAME` is handled at clock 0
and again at clock 600000 with the default grace period of 900000 ms. The
first round's grace timer fires at 900000 and resets `betweenRounds`, inside
the interval from 600000 to 1500000 in which the second round's grace period
is still running (its timer, handle 3, is still live). -/
theorem grace_timer_of_earlier_round_resets_flag :
    secondRoundState.now = 600000
    ∧ secondRoundState.betweenRounds = true
    ∧ gracePeriod defaultOptions = 900000
    ∧ firstGraceFiredState.now = 900000
    ∧ firstGraceFiredState.betweenRounds = false
    ∧ firstGraceFiredState.timers.filter (fun t => t.callback == .grace)
        = [{ handle := 3, callback := .grace, due := 1500000, period := none }] := by
  decide

/-! ## The squad-change handler -/

theorem getKey_deleteKey (obj : List (String × JSObj)) (k k' : String) :
    getKey (deleteKey obj k) k' = if k' = k then none else getKey obj k' := by
  induction obj with
  | nil => simp [getKey, deleteKey]
  | cons e obj ih =>
    unfold getKey deleteKey at *
    by_cases hk : k' = k
    · subst hk
      simp only [if_true, Option.map_eq_none', List.find?_eq_none, List.mem_filter]
      rintro x ⟨-, hx⟩
      simpa using hx
    · rw [if_neg hk] at ih ⊢
      by_cases he : e.1 = k
      · have h1 : (e.1 != k) = false := by simp [he]
        have h2 : (e.1 == k') = false := by
          rw [he]; simpa using fun h => hk h.symm
        rw [List.filter_cons, h1, List.find?_cons, h2]
        simpa using ih
      · have h1 : (e.1 != k) = true := by simp [he]
        rw [List.filter_cons, h1]
        simp only [if_true, List.find?_cons]
        cases h3 : e.1 == k'
        · simpa using ih
        · rfl

/-- C12. After the `PLAYER_SQUAD_CHANGE` handler has run for a player `p`,
`trackedPlayers` is the old object with the key `p.steamID` deleted when that
id was tracked and `p.squadID` is not null, and is the old object otherwise:
every other key keeps its entry, and no reconciliation tick is involved. -/
theorem onPlayerSquadChange_trackedPlayers (s : State) (p : Player) :
    (onPlayerSquadChange s p).trackedPlayers
        = (if hasKey s.trackedPlayers p.steamID && p.squadID.isSome
            then deleteKey s.trackedPlayers p.steamID else s.trackedPlayers)
    ∧ ∀ k : String, getKey (onPlayerSquadChange s p).trackedPlayers k
        = (if (hasKey s.trackedPlayers p.steamID && p.squadID.isSome) = true ∧ k = p.steamID
            then none else getKey s.trackedPlayers k) := by
  unfold onPlayerSquadChange
  cases hc : (hasKey s.trackedPlayers p.steamID && p.squadID.isSome)
  · simp
  · simp only [if_true, untrackPlayer_trackedPlayers, true_and]
    exact fun k => getKey_deleteKey _ _ _

/-! ## The kick callback -/

/-- C14 (counterexample). After the timers of "a" have fired on time up to the
kick at clock 420000, the kick action has been issued with the configured
message and "a" is still a key of `trackedPlayers`. -/
theorem kick_leaves_player_tracked :
    kickedState.now = 420000
    ∧ kickedState.actions.getLast? = some (.kick 420000 "a" defaultOptions.kickMessage)
    ∧ liveKickTimers kickedState "a" = 0
    ∧ hasKey kickedState.trackedPlayers "a" = true := by
  decide

/-- C14 (amended). When a live kick timer for `steamID` fires, the kick action
for that id is issued with `options.kickMessage`, and the callback leaves
`trackedPlayers` as it was. -/
theorem fire_kick_issues_kick_keeps_entry (options : Options) (server : Server) (s : State)
    (h d : Nat) (steamID : String) (p : Option Nat)
    (ht : s.timers.find? (fun u => u.handle == h)
      = some { handle := h, callback := .kick steamID, due := d, period := p }) :
    (fire options server s h).actions
        = s.actions ++ [.kick (max s.now d) steamID options.kickMessage]
    ∧ (fire options server s h).trackedPlayers = s.trackedPlayers := by
  unfold fire
  rw [ht]
  exact ⟨rfl, rfl⟩

/-- Witness for C14 (amended): the kick timer of "a" (handle 3, due 420000) in `trackedState`. -/
theorem fire_kick_issues_kick_keeps_entry_witness :
    (fire defaultOptions loneServer trackedState 3).actions
        = trackedState.actions ++ [.kick (max trackedState.now 420000) "a"
            defaultOptions.kickMessage]
    ∧ (fire defaultOptions loneServer trackedState 3).trackedPlayers
        = trackedState.trackedPlayers :=
  fire_kick_issues_kick_keeps_entry defaultOptions loneServer trackedState 3 420000 "a" none
    (by decide)

/-! ## Untracking an id that is not tracked -/

/-- C17 (counterexample). Right after construction "a" is not a key of
`trackedPlayers`, and `untrackPlayer("a")` returns a rejected promise. -/
theorem untrackPlayer_absent_rejects_at_start :
    hasKey (construct 0).trackedPlayers "a" = false
    ∧ (untrackPlayer (construct 0) "a").2 = .rejected := by
  decide

/-- C17 (amended). For an id that is not a key of `trackedPlayers`,
`untrackPlayer` leaves `trackedPlayers`, the timers and every other field of
the plugin as they were, and the promise it returns is rejected. -/
theorem untrackPlayer_absent (s : State) (steamID : String)
    (h : hasKey s.trackedPlayers steamID = false) :
    untrackPlayer s steamID
        = ({ s with rejections := s.rejections ++ [steamID] }, .rejected)
    ∧ (untrackPlayer s steamID).1.trackedPlayers = s.trackedPlayers
    ∧ (untrackPlayer s steamID).1.timers = s.timers := by
  have hnone := (getKey_eq_none_iff s.trackedPlayers steamID).2 h
  unfold untrackPlayer
  rw [hnone]
  exact ⟨rfl, rfl, rfl⟩

/-- Witness for C17 (amended): the id "b" in `trackedState`, where only "a" is tracked. -/
theorem untrackPlayer_absent_witness :
    hasKey trackedState.trackedPlayers "b" = false
    ∧ untrackPlayer trackedState "b"
        = ({ trackedState with rejections := trackedState.rejections ++ ["b"] }, .rejected)
    ∧ (untrackPlayer trackedState "b").1.trackedPlayers = trackedState.trackedPlayers
    ∧ (untrackPlayer trackedState "b").1.timers = trackedState.timers :=
  ⟨by decide, untrackPlayer_absent trackedState "b" (by decide)⟩

/-! ## Construction -/

/-- C18 (counterexample). With `afkTimer = 0` and `frequencyOfWarnings = 0`
both derived durations are 0, yet construction succeeds and schedules the
reconciliation and cleanup intervals; the first tick then tracks "a" with a
warn interval of 1 ms and a kick timeout of 1 ms. -/
theorem constructPlugin_zero_durations_succeeds :
    kickTimeout zeroOptions = 0
    ∧ warningInterval zeroOptions = 0
    ∧ constructPlugin zeroOptions 0 = .ok (construct 0)
    ∧ (construct 0).timers.map (fun t => t.callback) = [.tick, .cleanup]
    ∧ (run zeroOptions (construct 0) [.fire 0 loneServer]).timers.drop 2
        = [{ handle := 2, callback := .warn "a" 60000, due := 60001, period := some 1 },
           { handle := 3, callback := .kick "a", due := 60001, period := none }] := by
  refine ⟨by decide, by decide, rfl, by decide, by decide⟩

/-- C18 (amended). For every options value construction succeeds: no option is
checked, `betweenRounds` starts false, `trackedPlayers` starts empty and the
reconciliation interval (60000 ms) and the cleanup interval (1200000 ms) are
scheduled; a duration that is not positive is later used as a delay of 1 ms. -/
theorem constructPlugin_always_succeeds (options : Options) (t0 : Nat) :
    constructPlugin options t0 = .ok (construct t0)
    ∧ (construct t0).betweenRounds = false
    ∧ (construct t0).trackedPlayers = []
    ∧ (construct t0).timers
        = [{ handle := 0, callback := .tick, due := t0 + 60000, period := some 60000 },
           { handle := 1, callback := .cleanup, due := t0 + 1200000, period := some 1200000 }]
    ∧ ∀ ms : Int, ms ≤ 0 → timerDelay ms = 1 := by
  refine ⟨rfl, rfl, rfl, rfl, ?_⟩
  intro ms hms
  unfold timerDelay
  rw [if_neg]
  omega

/-! ## Ids outside the roster -/

theorem getKey_append_single_other (obj : List (String × JSObj)) (k k' : String) (v : JSObj)
    (hk : k' ≠ k) : getKey (obj ++ [(k, v)]) k' = getKey obj k' := by
  unfold getKey
  rw [List.find?_append]
  cases hf : obj.find? (fun e => e.1 == k') with
  | some e => rfl
  | none =>
    have : (k == k') = false := by simpa using fun h => hk h.symm
    simp [List.find?_cons, this]

theorem visitPlayer_getKey_other (options : Options) (s : State) (p : Player) (k : String)
    (hk : k ≠ p.steamID) :
    getKey (visitPlayer options s p).trackedPlayers k = getKey s.trackedPlayers k := by
  unfold visitPlayer
  cases hu : p.squadID.isNone <;> cases ht : hasKey s.trackedPlayers p.steamID <;>
    simp [untrackPlayer_trackedPlayers, trackPlayer_trackedPlayers, getKey_deleteKey, setKey,
      getKey_append_single_other, ht, hk]

theorem foldl_visit_getKey_other (options : Options) (ps : List Player) (s : State) (k : String)
    (hk : k ∉ ps.map (fun p => p.steamID)) :
    getKey (ps.foldl (visitPlayer options) s).trackedPlayers k = getKey s.trackedPlayers k := by
  induction ps generalizing s with
  | nil => rfl
  | cons q ps ih =>
    rw [List.map_cons, List.mem_cons, not_or] at hk
    rw [List.foldl_cons, ih _ hk.2, visitPlayer_getKey_other _ _ _ _ hk.1]

/-- C20. When `runConditions` is true, an id that is the steamID of no roster
player is a key of `trackedPlayers` after `updateTrackingList` exactly when it
was one before, and its stored entry is the same. -/
theorem updateTrackingList_frame (options : Options) (server : Server) (s : State) (k : String)
    (hrun : runConditions s.betweenRounds options server = true)
    (hk : k ∉ server.players.map (fun p => p.steamID)) :
    hasKey (updateTrackingList options server s).trackedPlayers k = hasKey s.trackedPlayers k
    ∧ getKey (updateTrackingList options server s).trackedPlayers k
        = getKey s.trackedPlayers k := by
  unfold updateTrackingList
  rw [hrun]
  exact ⟨foldl_visit_hasKey_other options _ s k hk, foldl_visit_getKey_other options _ s k hk⟩

/-- Witness for C20: the id "b", tracked in `trackedB`, with "a" alone in the roster. -/
theorem updateTrackingList_frame_witness :
    hasKey trackedB.trackedPlayers "b" = true
    ∧ hasKey (updateTrackingList defaultOptions loneServer trackedB).trackedPlayers "b"
        = hasKey trackedB.trackedPlayers "b"
    ∧ getKey (updateTrackingList defaultOptions loneServer trackedB).trackedPlayers "b"
        = getKey trackedB.trackedPlayers "b" :=
  ⟨by decide, updateTrackingList_frame defaultOptions loneServer trackedB "b" (by decide)
    (by decide)⟩

/-! ## Every `untrackPlayer` call of the plugin finds its entry -/

theorem keys_deleteKey_nodup (obj : List (String × JSObj)) (k : String)
    (h : (keys obj).Nodup) : (keys (deleteKey obj k)).Nodup :=
  h.sublist ((List.filter_sublist _).map _)

theorem keys_append_single_nodup (obj : List (String × JSObj)) (k : String) (v : JSObj)
    (h : (keys obj).Nodup) (hk : hasKey obj k = false) : (keys (obj ++ [(k, v)])).Nodup := by
  have hmem : k ∉ keys obj := by
    intro hin
    have : hasKey obj k = true := by simpa [hasKey] using hin
    rw [hk] at this
    exact Bool.noConfusion this
  unfold keys at *
  rw [List.map_append, List.map_singleton]
  exact List.Nodup.append h (List.nodup_singleton _)
    (fun x hx hx1 => hmem (by rw [List.mem_singleton] at hx1; rwa [hx1] at hx))

theorem clearTimer_rejections (s : State) (x : Option JSObj) :
    (clearTimer s x).rejections = s.rejections := by
  unfold clearTimer; split <;> rfl

theorem untrackPlayer_rejections_of_hasKey (s : State) (steamID : String)
    (h : hasKey s.trackedPlayers steamID = true) :
    (untrackPlayer s steamID).1.rejections = s.rejections := by
  unfold untrackPlayer
  cases hg : getKey s.trackedPlayers steamID with
  | none =>
    rw [(getKey_eq_none_iff _ _).1 hg] at h
    exact Bool.noConfusion h
  | some entry => simp only [clearTimer_rejections]

theorem untrackPlayer_keys_nodup (s : State) (steamID : String)
    (h : (keys s.trackedPlayers).Nodup) :
    (keys (untrackPlayer s steamID).1.trackedPlayers).Nodup := by
  rw [untrackPlayer_trackedPlayers]
  exact keys_deleteKey_nodup _ _ h

theorem visitPlayer_rejections (options : Options) (s : State) (p : Player) :
    (visitPlayer options s p).rejections = s.rejections := by
  unfold visitPlayer
  cases hu : p.squadID.isNone <;> cases ht : hasKey s.trackedPlayers p.steamID
  · simp
  · simpa using untrackPlayer_rejections_of_hasKey s p.steamID ht
  · simp [trackPlayer, setTimeout, setInterval]
  · simp

theorem visitPlayer_keys_nodup (options : Options) (s : State) (p : Player)
    (h : (keys s.trackedPlayers).Nodup) :
    (keys (visitPlayer options s p).trackedPlayers).Nodup := by
  unfold visitPlayer
  cases hu : p.squadID.isNone <;> cases ht : hasKey s.trackedPlayers p.steamID
  · simpa using h
  · simpa using untrackPlayer_keys_nodup s p.steamID h
  · simp only [Bool.not_false, Bool.and_self, if_true, Bool.not_true, Bool.and_false,
      Bool.false_eq_true, if_false, trackPlayer_trackedPlayers, setKey, ht]
    exact keys_append_single_nodup _ _ _ h ht
  · simpa using h

theorem foldl_visit_rejections (options : Options) (ps : List Player) (s : State) :
    (ps.foldl (visitPlayer options) s).rejections = s.rejections := by
  induction ps generalizing s with
  | nil => rfl
  | cons q ps ih => rw [List.foldl_cons, ih, visitPlayer_rejections]

theorem foldl_visit_keys_nodup (options : Options) (ps : List Player) (s : State)
    (h : (keys s.trackedPlayers).Nodup) :
    (keys (ps.foldl (visitPlayer options) s).trackedPlayers).Nodup := by
  induction ps generalizing s with
  | nil => exact h
  | cons q ps ih =>
    rw [List.foldl_cons]
    exact ih _ (visitPlayer_keys_nodup options s q h)

theorem foldl_untrack_rejections (ks : List String) (s : State) (hnd : ks.Nodup)
    (hks : ∀ k ∈ ks, hasKey s.trackedPlayers k = true) :
    (ks.foldl (fun st steamID => (untrackPlayer st steamID).1) s).rejections
      = s.rejections := by
  induction ks generalizing s with
  | nil => rfl
  | cons k ks ih =>
    rw [List.nodup_cons] at hnd
    rw [List.foldl_cons, ih _ hnd.2, untrackPlayer_rejections_of_hasKey s k
      (hks k (List.mem_cons_self _ _))]
    intro k' hk'
    rw [untrackPlayer_trackedPlayers, hasKey_deleteKey, hks k' (List.mem_cons_of_mem _ hk')]
    have : k' ≠ k := fun h => hnd.1 (h ▸ hk')
    simpa using this

theorem foldl_untrack_keys_nodup (ks : List String) (s : State)
    (h : (keys s.trackedPlayers).Nodup) :
    (keys (ks.foldl (fun st steamID => (untrackPlayer st steamID).1) s).trackedPlayers).Nodup := by
  rw [foldl_untrack_trackedPlayers]
  exact h.sublist ((List.filter_sublist _).map _)

theorem updateTrackingList_rejections (options : Options) (server : Server) (s : State)
    (h : (keys s.trackedPlayers).Nodup) :
    (updateTrackingList options server s).rejections = s.rejections := by
  unfold updateTrackingList
  split
  · apply foldl_untrack_rejections _ _ h
    intro k hk
    simpa [hasKey] using hk
  · exact foldl_visit_rejections _ _ _

theorem updateTrackingList_keys_nodup (options : Options) (server : Server) (s : State)
    (h : (keys s.trackedPlayers).Nodup) :
    (keys (updateTrackingList options server s).trackedPlayers).Nodup := by
  unfold updateTrackingList
  split
  · exact foldl_untrack_keys_nodup _ _ h
  · exact foldl_visit_keys_nodup _ _ _ h

theorem step_rejections_and_keys (options : Options) (s : State) (e : Event)
    (h : (keys s.trackedPlayers).Nodup) :
    (step options s e).rejections = s.rejections
    ∧ (keys (step options s e).trackedPlayers).Nodup := by
  cases e with
  | newGame server =>
    exact ⟨updateTrackingList_rejections options server { s with betweenRounds := true } h,
      updateTrackingList_keys_nodup options server { s with betweenRounds := true } h⟩
  | playerSquadChange player =>
    show (onPlayerSquadChange s player).rejections = s.rejections
      ∧ (keys (onPlayerSquadChange s player).trackedPlayers).Nodup
    unfold onPlayerSquadChange
    cases hc : (hasKey s.trackedPlayers player.steamID && player.squadID.isSome)
    · exact ⟨rfl, h⟩
    · rw [Bool.and_eq_true] at hc
      exact ⟨untrackPlayer_rejections_of_hasKey s _ hc.1, untrackPlayer_keys_nodup s _ h⟩
  | fire handle server =>
    show (fire options server s handle).rejections = s.rejections
      ∧ (keys (fire options server s handle).trackedPlayers).Nodup
    unfold fire
    cases hf : s.timers.find? (fun t => t.handle == handle) with
    | none => exact ⟨rfl, h⟩
    | some t =>
      cases hcb : t.callback with
      | tick =>
        simp only [hcb, runCallback]
        exact ⟨updateTrackingList_rejections options server _ h,
          updateTrackingList_keys_nodup options server _ h⟩
      | cleanup =>
        simp only [hcb, runCallback, cleanupScan_eq]
        exact ⟨trivial, h⟩
      | grace => simp only [hcb, runCallback]; exact ⟨trivial, h⟩
      | warn steamID trackStart => simp only [hcb, runCallback]; exact ⟨trivial, h⟩
      | kick steamID => simp only [hcb, runCallback]; exact ⟨trivial, h⟩
  | clock t => exact ⟨rfl, h⟩

theorem run_rejections_and_keys (options : Options) (events : List Event) (s : State)
    (h : (keys s.trackedPlayers).Nodup) :
    (run options s events).rejections = s.rejections
    ∧ (keys (run options s events).trackedPlayers).Nodup := by
  induction events generalizing s with
  | nil => exact ⟨rfl, h⟩
  | cons e events ih =>
    have hs := step_rejections_and_keys options s e h
    have := ih (step options s e) hs.2
    exact ⟨this.1.trans hs.1, this.2⟩

/-- C19. In every state reachable from the constructed plugin no `untrackPlayer`
call has been rejected: each call made by the `NEW_GAME` handler, the
`PLAYER_SQUAD_CHANGE` handler, `updateTrackingList` and the cleanup callback
found `this.trackedPlayers[steamID]` defined, whatever rosters the server
reported, rosters that repeat a steamID included. -/
theorem reachable_no_rejected_untrack (options : Options) (s : State)
    (h : Reachable options s) : s.rejections = [] := by
  obtain ⟨t0, events, rfl⟩ := h
  exact (run_rejections_and_keys options events (construct t0) List.nodup_nil).1

/-- Witness for C19: a reconciliation tick, a `NEW_GAME` and a cleanup tick over
a roster that lists "a" twice, once unassigned and once in squad 1. -/
theorem reachable_no_rejected_untrack_witness :
    Reachable defaultOptions duplicateRosterState
    ∧ duplicateRosterState.nextHandle = 7
    ∧ duplicateRosterState.rejections = [] :=
  ⟨⟨0, _, rfl⟩, by decide,
    reachable_no_rejected_untrack defaultOptions duplicateRosterState ⟨0, _, rfl⟩⟩

/-! ## The two timers of a tracked player -/

theorem map_rearm_other (l : List Timer) (h : Nat) (f : Timer → Timer)
    (hl : ∀ t ∈ l, t.handle ≠ h) :
    l.map (fun u => if u.handle == h then f u else u) = l := by
  induction l with
  | nil => rfl
  | cons a l ih =>
    have ha : (a.handle == h) = false := by simpa using hl a (List.mem_cons_self _ _)
    rw [List.map_cons, ih (fun t ht => hl t (List.mem_cons_of_mem _ ht)), ha]
    rfl

theorem filter_handle_other (l : List Timer) (h : Nat) (hl : ∀ t ∈ l, t.handle ≠ h) :
    l.filter (fun u => u.handle != h) = l := by
  rw [List.filter_eq_self]
  intro t ht
  simpa using hl t ht

theorem timerDelay_pos (ms : Int) : 0 < timerDelay ms := by
  unfold timerDelay
  split <;> omega

theorem timerDelay_of_range (ms : Int) (h : 1 ≤ ms ∧ ms ≤ 2147483647) :
    (timerDelay ms : Int) = ms := by
  unfold timerDelay
  rw [if_pos h]
  omega

/-! ## Remaining time in a warning -/

theorem warnMessage_eq (options : Options) (now trackStart : Nat) :
    warnMessage options now trackStart
      = options.warningMessage ++ " - "
          ++ toString (toInt32 ((msLeft options now trackStart).tdiv 60000))
          ++ ":" ++ toString ((msLeft options now trackStart).tmod 60000 / 1000) := rfl

theorem msLeft_after_periods (options : Options) (trackStart k : Nat) :
    msLeft options (trackStart + k * warnDelay options) trackStart
      = kickTimeout options - (k : Int) * (warnDelay options : Int) := by
  unfold msLeft
  push_cast
  omega

/-! ## On-time runs: one roster visit keeps the invariant -/

theorem getKey_some_mem (obj : List (String × JSObj)) (k : String) (e : JSObj)
    (h : getKey obj k = some e) : ∃ x ∈ obj, x.2 = e := by
  unfold getKey at h
  rw [Option.map_eq_some'] at h
  obtain ⟨x, hx, rfl⟩ := h
  exact ⟨x, List.mem_of_find?_eq_some hx, rfl⟩

theorem untrackPlayer_of_promise (s : State) (k : String)
    (hp : ∀ e ∈ s.trackedPlayers, isPromise e.2 = true) (hk : hasKey s.trackedPlayers k = true) :
    (untrackPlayer s k).1 = { s with trackedPlayers := deleteKey s.trackedPlayers k } := by
  unfold untrackPlayer
  cases hg : getKey s.trackedPlayers k with
  | none =>
    rw [(getKey_eq_none_iff _ _).1 hg] at hk
    exact Bool.noConfusion hk
  | some entry =>
    obtain ⟨x, hx, rfl⟩ := getKey_some_mem _ _ _ hg
    have := hp x hx
    cases hx2 : x.2 with
    | timeout n => rw [hx2] at this; exact Bool.noConfusion this
    | pair a b => rw [hx2] at this; exact Bool.noConfusion this
    | promise v => rfl

theorem visitPlayer_track (options : Options) (s : State) (p : Player)
    (hu : p.squadID.isNone = true) (ht : hasKey s.trackedPlayers p.steamID = false) :
    visitPlayer options s p
      = { s with
          timers := s.timers ++
            [{ handle := s.nextHandle, callback := .warn p.steamID s.now,
               due := s.now + warnDelay options, period := some (warnDelay options) },
             { handle := s.nextHandle + 1, callback := .kick p.steamID,
               due := s.now + kickDelay options, period := none }]
          nextHandle := s.nextHandle + 1 + 1
          trackedPlayers := s.trackedPlayers ++
            [(p.steamID, .promise (.pair (.timeout s.nextHandle) (.timeout (s.nextHandle + 1))))] } := by
  simp [visitPlayer, trackPlayer, setInterval, setTimeout, setKey, hu, ht, warnDelay, kickDelay]

theorem visitPlayer_sound (options : Options) (steamID : String) (s : State) (p : Player)
    (hs : Sound steamID s) (hp : p.steamID = steamID → p.squadID.isNone = true) :
    Sound steamID (visitPlayer options s p)
    ∧ (visitPlayer options s p).timers.filter (timerOf steamID)
        = s.timers.filter (timerOf steamID)
    ∧ (visitPlayer options s p).actions = s.actions
    ∧ (visitPlayer options s p).now = s.now := by
  cases hu : p.squadID.isNone <;> cases ht : hasKey s.trackedPlayers p.steamID
  · have : visitPlayer options s p = s := by simp [visitPlayer, hu, ht]
    rw [this]; exact ⟨hs, rfl, rfl, rfl⟩
  · -- an assigned, tracked player other than `steamID` is untracked
    have hne : steamID ≠ p.steamID := by
      intro h
      have := hp h.symm
      rw [hu] at this
      exact Bool.noConfusion this
    have hv : visitPlayer options s p
        = { s with trackedPlayers := deleteKey s.trackedPlayers p.steamID } := by
      have := untrackPlayer_of_promise s p.steamID hs.promises ht
      simp [visitPlayer, hu, ht, this]
    rw [hv]
    refine ⟨⟨hs.flag, ?_, ?_, hs.nodup, hs.fresh, hs.due⟩, rfl, rfl, rfl⟩
    · show hasKey (deleteKey s.trackedPlayers p.steamID) steamID = true
      rw [hasKey_deleteKey, hs.key]
      simpa using hne
    · intro e he
      exact hs.promises e (List.mem_of_mem_filter he)
  · -- an unassigned, untracked player is tracked; it is not `steamID`
    have hne : p.steamID ≠ steamID := by
      intro h
      rw [h, hs.key] at ht
      exact Bool.noConfusion ht
    rw [visitPlayer_track options s p hu ht]
    refine ⟨⟨hs.flag, ?_, ?_, ?_, ?_, ?_⟩, ?_, rfl, rfl⟩
    · show hasKey (s.trackedPlayers ++ [_]) steamID = true
      rw [hasKey_append_single, hs.key]
      rfl
    · intro e he
      rcases List.mem_append.1 he with he | he
      · exact hs.promises e he
      · rw [List.mem_singleton] at he
        rw [he]
        rfl
    · show ((s.timers ++ [_, _]).map (fun t : Timer => t.handle)).Nodup
      rw [List.map_append]
      refine List.Nodup.append hs.nodup (by simp) ?_
      intro x hx hx'
      rw [List.mem_map] at hx
      obtain ⟨t, ht', rfl⟩ := hx
      have := hs.fresh t ht'
      simp at hx'
      omega
    · intro t ht'
      show t.handle < s.nextHandle + 1 + 1
      rcases List.mem_append.1 ht' with h1 | h1
      · have := hs.fresh t h1; omega
      · simp at h1
        rcases h1 with rfl | rfl
        · show s.nextHandle < s.nextHandle + 1 + 1
          omega
        · show s.nextHandle + 1 < s.nextHandle + 1 + 1
          omega
    · intro t ht'
      show s.now ≤ t.due
      rcases List.mem_append.1 ht' with h1 | h1
      · exact hs.due t h1
      · simp at h1
        rcases h1 with rfl | rfl
        · exact Nat.le_add_right _ _
        · exact Nat.le_add_right _ _
    · show (s.timers ++ [_, _]).filter (timerOf steamID) = _
      have hb : (p.steamID == steamID) = false := by simpa using hne
      simp [List.filter_append, List.filter_cons, timerOf, hb]
  · have : visitPlayer options s p = s := by simp [visitPlayer, hu, ht]
    rw [this]; exact ⟨hs, rfl, rfl, rfl⟩

theorem foldl_visit_sound (options : Options) (steamID : String) (ps : List Player) (s : State)
    (hs : Sound steamID s)
    (hp : ∀ p ∈ ps, p.steamID = steamID → p.squadID.isNone = true) :
    Sound steamID (ps.foldl (visitPlayer options) s)
    ∧ (ps.foldl (visitPlayer options) s).timers.filter (timerOf steamID)
        = s.timers.filter (timerOf steamID)
    ∧ (ps.foldl (visitPlayer options) s).actions = s.actions
    ∧ (ps.foldl (visitPlayer options) s).now = s.now := by
  induction ps generalizing s with
  | nil => exact ⟨hs, rfl, rfl, rfl⟩
  | cons q ps ih =>
    obtain ⟨h1, h2, h3, h4⟩ := visitPlayer_sound options steamID s q hs
      (hp q (List.mem_cons_self _ _))
    obtain ⟨g1, g2, g3, g4⟩ := ih (visitPlayer options s q) h1
      (fun p hp' => hp p (List.mem_cons_of_mem _ hp'))
    rw [List.foldl_cons]
    exact ⟨g1, g2.trans h2, g3.trans h3, g4.trans h4⟩

theorem keepsTracked_iff (steamID : String) (server : Server) :
    keepsTracked steamID server = true
      ↔ ∀ p ∈ server.players, p.steamID = steamID → p.squadID.isNone = true := by
  unfold keepsTracked
  rw [List.all_eq_true]
  constructor
  · intro h p hp heq
    have := h p hp
    simpa [heq] using this
  · intro h p hp
    by_cases heq : p.steamID = steamID
    · simp [h p hp heq]
    · simp [heq]

theorem updateTrackingList_sound (options : Options) (steamID : String) (server : Server)
    (s : State) (hs : Sound steamID s) (hk : keepsTracked steamID server = true) :
    Sound steamID (updateTrackingList options server s)
    ∧ (updateTrackingList options server s).timers.filter (timerOf steamID)
        = s.timers.filter (timerOf steamID)
    ∧ (updateTrackingList options server s).actions = s.actions
    ∧ (updateTrackingList options server s).now = s.now := by
  have hrun : runConditions s.betweenRounds options server = true := by
    rw [hs.flag]; rfl
  unfold updateTrackingList
  rw [hrun]
  exact foldl_visit_sound options steamID _ s hs ((keepsTracked_iff _ _).1 hk)

/-! ## On-time runs: the timer table after a firing -/

theorem find_handle_spec {ts : List Timer} {h : Nat} {t : Timer}
    (hf : ts.find? (fun u => u.handle == h) = some t) : t ∈ ts ∧ t.handle = h := by
  refine ⟨List.mem_of_find?_eq_some hf, ?_⟩
  have := List.find?_some hf
  simpa using this

theorem eq_of_same_handle (ts : List Timer) (hnd : (ts.map (fun t => t.handle)).Nodup)
    {a b : Timer} (ha : a ∈ ts) (hb : b ∈ ts) (h : a.handle = b.handle) : a = b :=
  List.inj_on_of_nodup_map hnd ha hb h

theorem fire_eq (options : Options) (server : Server) (r : State) (h : Nat) (t : Timer)
    (hf : r.timers.find? (fun u => u.handle == h) = some t) :
    fire options server r h
      = runCallback options server
          { r with
            now := max r.now t.due
            timers :=
              match t.period with
              | some p => r.timers.map
                  (fun u => if u.handle == h then { u with due := max r.now t.due + p } else u)
              | none => r.timers.filter (fun u => u.handle != h) }
          t.callback := by
  unfold fire
  rw [hf]

theorem filter_timerOf_rearm (steamID : String) (ts : List Timer) (h d : Nat) :
    (ts.map (fun u => if u.handle == h then { u with due := d } else u)).filter (timerOf steamID)
      = (ts.filter (timerOf steamID)).map
          (fun u => if u.handle == h then { u with due := d } else u) := by
  induction ts with
  | nil => rfl
  | cons a ts ih =>
    have ha : timerOf steamID (if a.handle == h then { a with due := d } else a)
        = timerOf steamID a := by
      split <;> rfl
    rw [List.map_cons, List.filter_cons, List.filter_cons, ha, ih]
    split <;> rfl

theorem filter_timerOf_remove (steamID : String) (ts : List Timer) (h : Nat) :
    (ts.filter (fun u => u.handle != h)).filter (timerOf steamID)
      = (ts.filter (timerOf steamID)).filter (fun u => u.handle != h) := by
  rw [List.filter_filter, List.filter_filter]
  congr 1
  funext u
  exact Bool.and_comm _ _

theorem sound_after_table_update (steamID : String) (r : State) (t : Timer)
    (hs : Sound steamID r) (hmin : ∀ u ∈ r.timers, t.due ≤ u.due) :
    Sound steamID
      { r with
        now := t.due
        timers :=
          match t.period with
          | some p => r.timers.map
              (fun u => if u.handle == t.handle then { u with due := t.due + p } else u)
          | none => r.timers.filter (fun u => u.handle != t.handle) } := by
  cases hper : t.period with
  | none =>
    refine ⟨hs.flag, hs.key, hs.promises, ?_, ?_, ?_⟩
    · exact hs.nodup.sublist ((List.filter_sublist _).map _)
    · intro u hu
      exact hs.fresh u (List.mem_of_mem_filter hu)
    · intro u hu
      exact hmin u (List.mem_of_mem_filter hu)
  | some p =>
    refine ⟨hs.flag, hs.key, hs.promises, ?_, ?_, ?_⟩
    · show ((r.timers.map _).map (fun t : Timer => t.handle)).Nodup
      rw [List.map_map]
      have : ((fun t : Timer => t.handle) ∘
          (fun u : Timer => if u.handle == t.handle then { u with due := t.due + p } else u))
          = (fun t : Timer => t.handle) := by
        funext u
        show (if u.handle == t.handle then { u with due := t.due + p } else u).handle = u.handle
        split <;> rfl
      rw [this]
      exact hs.nodup
    · intro u hu
      obtain ⟨v, hv, rfl⟩ := List.mem_map.1 hu
      have := hs.fresh v hv
      show (if v.handle == t.handle then { v with due := t.due + p } else v).handle < r.nextHandle
      split <;> exact this
    · intro u hu
      obtain ⟨v, hv, rfl⟩ := List.mem_map.1 hu
      show t.due ≤ (if v.handle == t.handle then { v with due := t.due + p } else v).due
      split
      · exact Nat.le_add_right _ _
      · exact hmin v hv

theorem own_after_table_update_other (steamID : String) (r : State) (t : Timer)
    (hs : Sound steamID r) (htm : t ∈ r.timers) (hown : timerOf steamID t = false) :
    (match t.period with
      | some p => r.timers.map
          (fun u : Timer => if u.handle == t.handle then { u with due := t.due + p } else u)
      | none => r.timers.filter (fun u : Timer => u.handle != t.handle)).filter
        (timerOf steamID)
      = r.timers.filter (timerOf steamID) := by
  have hother : ∀ u ∈ r.timers.filter (timerOf steamID), u.handle ≠ t.handle := by
    intro u hu heq
    obtain ⟨hum, huo⟩ := List.mem_filter.1 hu
    have := eq_of_same_handle r.timers hs.nodup hum htm heq
    rw [this, hown] at huo
    exact Bool.noConfusion huo
  cases hper : t.period with
  | none =>
    dsimp only
    rw [filter_timerOf_remove, filter_handle_other _ _ hother]
  | some p =>
    dsimp only
    rw [filter_timerOf_rearm, map_rearm_other _ _ _ hother]

/-! ## On-time runs: one firing keeps the invariant -/

theorem runCallback_other (options : Options) (steamID : String) (t0 h : Nat)
    (base s0 : State) (j : Nat) (c : Bool) (server : Server) (t : Timer)
    (hT : Tracking options steamID t0 h base s0 j c) (hown : timerOf steamID t = false)
    (hk : keepsTracked steamID server = true) :
    Tracking options steamID t0 h base (runCallback options server s0 t.callback) j c := by
  unfold timerOf at hown
  cases hcb : t.callback with
  | tick =>
    obtain ⟨h1, h2, h3, h4⟩ := updateTrackingList_sound options steamID server s0 hT.sound hk
    refine ⟨h1, by rw [runCallback, h2]; exact hT.own, ?_, ?_, ?_, ?_⟩
    · have : warnsFor (runCallback options server s0 .tick) steamID = warnsFor s0 steamID := by
        unfold warnsFor; rw [runCallback, h3]
      rw [this]; exact hT.warns
    · have : kicksFor (runCallback options server s0 .tick) steamID = kicksFor s0 steamID := by
        unfold kicksFor; rw [runCallback, h3]
      rw [this]; exact hT.kicks
    · rw [runCallback, h4]; exact hT.clock
    · rw [runCallback, h4]; exact hT.kicked
  | cleanup =>
    rw [runCallback, cleanupScan_eq]
    exact hT
  | grace =>
    exact ⟨⟨rfl, hT.sound.key, hT.sound.promises, hT.sound.nodup, hT.sound.fresh, hT.sound.due⟩,
      hT.own, hT.warns, hT.kicks, hT.clock, hT.kicked⟩
  | warn i t1 =>
    rw [hcb] at hown
    have hi : (i == steamID) = false := hown
    refine ⟨⟨hT.sound.flag, hT.sound.key, hT.sound.promises, hT.sound.nodup, hT.sound.fresh,
      hT.sound.due⟩, hT.own, ?_, ?_, hT.clock, hT.kicked⟩
    · have : warnsFor (runCallback options server s0 (.warn i t1)) steamID
          = warnsFor s0 steamID := by
        simp [warnsFor, runCallback, List.filter_append, hi]
      rw [this]; exact hT.warns
    · have : kicksFor (runCallback options server s0 (.warn i t1)) steamID
          = kicksFor s0 steamID := by
        simp [kicksFor, runCallback, List.filter_append]
      rw [this]; exact hT.kicks
  | kick i =>
    rw [hcb] at hown
    have hi : (i == steamID) = false := hown
    refine ⟨⟨hT.sound.flag, hT.sound.key, hT.sound.promises, hT.sound.nodup, hT.sound.fresh,
      hT.sound.due⟩, hT.own, ?_, ?_, hT.clock, hT.kicked⟩
    · have : warnsFor (runCallback options server s0 (.kick i)) steamID
          = warnsFor s0 steamID := by
        simp [warnsFor, runCallback, List.filter_append]
      rw [this]; exact hT.warns
    · have : kicksFor (runCallback options server s0 (.kick i)) steamID
          = kicksFor s0 steamID := by
        simp [kicksFor, runCallback, List.filter_append, hi]
      rw [this]; exact hT.kicks

theorem fire_tracking (options : Options) (steamID : String) (t0 h : Nat) (base r : State)
    (j : Nat) (c : Bool) (server : Server) (h' : Nat)
    (hT : Tracking options steamID t0 h base r j c) (hd : dueFirst r h' = true)
    (hk : keepsTracked steamID server = true) :
    ∃ j' c', Tracking options steamID t0 h base (fire options server r h') j' c' := by
  unfold dueFirst at hd
  cases hf : r.timers.find? (fun t => t.handle == h') with
  | none => rw [hf] at hd; exact Bool.noConfusion hd
  | some t =>
    rw [hf] at hd
    have hmin : ∀ u ∈ r.timers, t.due ≤ u.due := by
      simpa [List.all_eq_true] using hd
    obtain ⟨htm, hth⟩ := find_handle_spec hf
    have hnow : max r.now t.due = t.due := Nat.max_eq_right (hT.sound.due t htm)
    have hs0 := sound_after_table_update steamID r t hT.sound hmin
    rw [fire_eq options server r h' t hf, hnow, ← hth]
    cases hown : timerOf steamID t with
    | false =>
      refine ⟨j, c, runCallback_other options steamID t0 h base _ j c server t ?_ hown hk⟩
      refine ⟨hs0, ?_, hT.warns, hT.kicks, le_trans hT.clock (hT.sound.due t htm),
        fun hc => le_trans (hT.kicked hc) (hT.sound.due t htm)⟩
      rw [← hT.own]
      exact own_after_table_update_other steamID r t hT.sound htm hown
    | true =>
      have hmem : t ∈ r.timers.filter (timerOf steamID) := List.mem_filter.2 ⟨htm, hown⟩
      rw [hT.own] at hmem
      rcases List.mem_cons.1 hmem with hW | hK
      · -- the warn timer fires
        refine ⟨j + 1, c, ?_⟩
        subst hW
        refine ⟨?_, ?_, ?_, ?_, ?_, ?_⟩
        · exact ⟨hs0.flag, hs0.key, hs0.promises, hs0.nodup, hs0.fresh, hs0.due⟩
        · show (r.timers.map _).filter (timerOf steamID) = _
          rw [filter_timerOf_rearm, hT.own]
          cases c with
          | true =>
            simp only [List.map_cons, List.map_nil, beq_self_eq_true, if_true, Bool.false_eq_true,
              if_false]
            congr 2
            rw [Nat.add_mul (j + 1) 1, Nat.one_mul, Nat.add_assoc]
          | false =>
            have hne : (h + 1 == h) = false := by simp
            simp only [List.map_cons, List.map_nil, beq_self_eq_true, if_true, Bool.false_eq_true,
              if_false, hne]
            congr 2
            rw [Nat.add_mul (j + 1) 1, Nat.one_mul, Nat.add_assoc]
        · have : warnsFor (runCallback options server
              { r with
                now := t0 + (j + 1) * warnDelay options
                timers := r.timers.map (fun u => if u.handle == h then
                  { u with due := t0 + (j + 1) * warnDelay options + warnDelay options } else u) }
              (.warn steamID t0)) steamID
              = warnsFor r steamID ++ [warnAction options steamID t0 (1 + j)] := by
            simp [warnsFor, runCallback, List.filter_append, warnAction, Nat.add_comm 1 j]
          exact this.trans (by rw [hT.warns, List.range'_1_concat, List.map_append,
            List.append_assoc]; rfl)
        · have : kicksFor (runCallback options server
              { r with
                now := t0 + (j + 1) * warnDelay options
                timers := r.timers.map (fun u => if u.handle == h then
                  { u with due := t0 + (j + 1) * warnDelay options + warnDelay options } else u) }
              (.warn steamID t0)) steamID
              = kicksFor r steamID := by
            simp [kicksFor, runCallback, List.filter_append]
          exact this.trans hT.kicks
        · exact Nat.le_refl _
        · intro hc
          exact le_trans (hT.kicked hc) (hT.sound.due _ htm)
      · -- the kick timer fires
        cases c with
        | true => simp at hK
        | false =>
          simp only [Bool.false_eq_true, if_false, List.mem_singleton] at hK
          subst hK
          refine ⟨j, true, ?_, ?_, ?_, ?_, ?_, ?_⟩
          · exact ⟨hs0.flag, hs0.key, hs0.promises, hs0.nodup, hs0.fresh, hs0.due⟩
          · show (r.timers.filter _).filter (timerOf steamID) = _
            rw [filter_timerOf_remove, hT.own]
            simp
          · have : warnsFor (runCallback options server
                { r with
                  now := t0 + kickDelay options
                  timers := r.timers.filter (fun u => u.handle != h + 1) }
                (.kick steamID)) steamID
                = warnsFor r steamID := by
              simp [warnsFor, runCallback, List.filter_append]
            exact this.trans hT.warns
          · have : kicksFor (runCallback options server
                { r with
                  now := t0 + kickDelay options
                  timers := r.timers.filter (fun u => u.handle != h + 1) }
                (.kick steamID)) steamID
                = kicksFor r steamID
                  ++ [.kick (t0 + kickDelay options) steamID options.kickMessage] := by
              simp [kicksFor, runCallback, List.filter_append]
            exact this.trans (by rw [hT.kicks]; simp)
          · exact le_trans hT.clock (hT.sound.due _ htm)
          · intro _
            exact Nat.le_refl _

/-! ## On-time runs: the invariant holds from the start of tracking -/

theorem readyToTrack_tracking (options : Options) (steamID : String) (s : State)
    (hs : readyToTrack steamID s = true) :
    Tracking options steamID s.now s.nextHandle s
      (visitPlayer options s { steamID := steamID, squadID := none }) 0 false := by
  unfold readyToTrack at hs
  simp only [Bool.and_eq_true, Bool.not_eq_true', List.all_eq_true, decide_eq_true_eq] at hs
  obtain ⟨⟨⟨⟨⟨⟨hflag, hkey⟩, hnone⟩, hprom⟩, hnd⟩, hfresh⟩, hdue⟩ := hs
  rw [visitPlayer_track options s { steamID := steamID, squadID := none } rfl hkey]
  refine ⟨⟨hflag, ?_, ?_, ?_, ?_, ?_⟩, ?_, ?_, ?_, ?_, ?_⟩
  · show hasKey (s.trackedPlayers ++ [_]) steamID = true
    rw [hasKey_append_single]
    simp
  · intro e he
    rcases List.mem_append.1 he with he | he
    · exact hprom e he
    · rw [List.mem_singleton] at he
      rw [he]
      rfl
  · show ((s.timers ++ [_, _]).map (fun t : Timer => t.handle)).Nodup
    rw [List.map_append]
    refine List.Nodup.append hnd (by simp) ?_
    intro x hx hx'
    rw [List.mem_map] at hx
    obtain ⟨t, ht', rfl⟩ := hx
    have := hfresh t ht'
    simp at hx'
    omega
  · intro t ht'
    show t.handle < s.nextHandle + 1 + 1
    rcases List.mem_append.1 ht' with h1 | h1
    · have := hfresh t h1; omega
    · simp at h1
      rcases h1 with rfl | rfl
      · show s.nextHandle < s.nextHandle + 1 + 1
        omega
      · show s.nextHandle + 1 < s.nextHandle + 1 + 1
        omega
  · intro t ht'
    show s.now ≤ t.due
    rcases List.mem_append.1 ht' with h1 | h1
    · exact hdue t h1
    · simp at h1
      rcases h1 with rfl | rfl
      · exact Nat.le_add_right _ _
      · exact Nat.le_add_right _ _
  · show (s.timers ++ [_, _]).filter (timerOf steamID) = _
    have h0 : s.timers.filter (timerOf steamID) = [] := by
      rw [List.filter_eq_nil_iff]
      intro t ht
      rw [hnone t ht]
      exact Bool.false_ne_true
    rw [List.filter_append, h0]
    simp [List.filter_cons, timerOf]
  · show warnsFor _ steamID = _
    simp [warnsFor]
  · show kicksFor _ steamID = _
    simp [kicksFor]
  · show s.now + 0 * warnDelay options ≤ s.now
    omega
  · intro h
    exact Bool.noConfusion h

theorem step_tracking (options : Options) (steamID : String) (t0 h : Nat) (base r : State)
    (j : Nat) (c : Bool) (e : Event)
    (hT : Tracking options steamID t0 h base r j c) (he : onTimeEvent steamID r e = true) :
    ∃ j' c', Tracking options steamID t0 h base (step options r e) j' c' := by
  cases e with
  | newGame server => exact Bool.noConfusion he
  | playerSquadChange player => exact Bool.noConfusion he
  | fire h' server =>
    unfold onTimeEvent at he
    rw [Bool.and_eq_true] at he
    exact fire_tracking options steamID t0 h base r j c server h' hT he.1 he.2
  | clock t =>
    unfold onTimeEvent at he
    simp only [List.all_eq_true, decide_eq_true_eq] at he
    refine ⟨j, c, ⟨hT.sound.flag, hT.sound.key, hT.sound.promises, hT.sound.nodup,
      hT.sound.fresh, ?_⟩, hT.own, hT.warns, hT.kicks, ?_, ?_⟩
    · intro u hu
      exact Nat.max_le.2 ⟨hT.sound.due u hu, he u hu⟩
    · exact le_trans hT.clock (Nat.le_max_left _ _)
    · intro hc
      exact le_trans (hT.kicked hc) (Nat.le_max_left _ _)

theorem run_tracking (options : Options) (steamID : String) (t0 h : Nat) (base : State)
    (events : List Event) (r : State) (j : Nat) (c : Bool)
    (hT : Tracking options steamID t0 h base r j c)
    (hev : onTime options steamID r events = true) :
    ∃ j' c', Tracking options steamID t0 h base (run options r events) j' c' := by
  induction events generalizing r j c with
  | nil => exact ⟨j, c, hT⟩
  | cons e events ih =>
    unfold onTime at hev
    rw [Bool.and_eq_true] at hev
    obtain ⟨j1, c1, h1⟩ := step_tracking options steamID t0 h base r j c e hT hev.1
    exact ih (step options r e) j1 c1 h1 hev.2

theorem tracking_clock (options : Options) (steamID : String) (t0 h : Nat) (base r : State)
    (j : Nat) (c : Bool) (hT : Tracking options steamID t0 h base r j c) :
    r.now ≤ t0 + (j + 1) * warnDelay options
    ∧ (c = false → r.now ≤ t0 + kickDelay options) := by
  have hmem : ∀ u ∈ r.timers.filter (timerOf steamID), r.now ≤ u.due :=
    fun u hu => hT.sound.due u (List.mem_of_mem_filter hu)
  rw [hT.own] at hmem
  refine ⟨hmem _ (List.mem_cons_self _ _), ?_⟩
  intro hc
  subst hc
  exact hmem _ (List.mem_cons_of_mem _ (List.mem_singleton.2 rfl))

theorem onTime_run_actions (options : Options) (steamID : String) (s : State)
    (events : List Event) (hs : readyToTrack steamID s = true)
    (hev : onTime options steamID
      (visitPlayer options s { steamID := steamID, squadID := none }) events = true) :
    ∃ (j : Nat) (c : Bool),
      warnsFor (run options (visitPlayer options s { steamID := steamID, squadID := none })
          events) steamID
        = warnsFor s steamID ++ (List.range' 1 j).map (warnAction options steamID s.now)
      ∧ kicksFor (run options (visitPlayer options s { steamID := steamID, squadID := none })
          events) steamID
        = kicksFor s steamID ++
          (if c then [.kick (s.now + kickDelay options) steamID options.kickMessage] else [])
      ∧ s.now + j * warnDelay options
          ≤ (run options (visitPlayer options s { steamID := steamID, squadID := none })
              events).now
      ∧ (run options (visitPlayer options s { steamID := steamID, squadID := none })
              events).now ≤ s.now + (j + 1) * warnDelay options
      ∧ (c = false →
          (run options (visitPlayer options s { steamID := steamID, squadID := none })
              events).now ≤ s.now + kickDelay options)
      ∧ (c = true →
          s.now + kickDelay options
            ≤ (run options (visitPlayer options s { steamID := steamID, squadID := none })
                events).now) := by
  obtain ⟨j, c, hT⟩ := run_tracking options steamID s.now s.nextHandle s events _ 0 false
    (readyToTrack_tracking options steamID s hs) hev
  obtain ⟨h1, h2⟩ := tracking_clock options steamID s.now s.nextHandle s _ j c hT
  exact ⟨j, c, hT.warns, hT.kicks, hT.clock, h1, h2, hT.kicked⟩

/-! ## The warnings and the kick of a tracked player -/

/-- C13 (counterexample). With the default options (kick timeout 360000 ms,
warn interval 30000 ms) and "a" tracked at clock 60000, in the on-time run
`eventsPastKick` the kick at 420000 is followed by a warning at the same
instant and by further warnings at 450000 and 480000. -/
theorem warnings_continue_at_and_after_kick :
    onTime defaultOptions "a" trackedState eventsPastKick = true
    ∧ kickDelay defaultOptions = 360000
    ∧ warnDelay defaultOptions = 30000
    ∧ (actionsFor warnedAfterKickState "a").drop 11 =
        [.kick 420000 "a" "Unassigned - automatically removed",
         .warn 420000 "a" "Join a squad, you are are unassigned and will be kicked - 0:0",
         .warn 450000 "a" "Join a squad, you are are unassigned and will be kicked - 0:-30",
         .warn 480000 "a" "Join a squad, you are are unassigned and will be kicked - -1:0"] := by
  decide

/-- C13 (amended). Let the warn interval `w` and the kick timeout `K` lie
between 1 and 2^31 - 1 ms, let line 103 start tracking `steamID` at clock `t0`
in a state that is ready for it, and let the timers of the plugin then fire
on time, in any order among those due at the same instant, while no roster
shows `steamID` in a squad. Then the warn actions for `steamID` issued since
are those at `t0 + k*w` for `k = 1 .. j`, in this order, each computed from
`trackStart = t0`, where `t0 + j*w ≤ now ≤ t0 + (j+1)*w`: none is missing and
the warnings do not stop at `K`. The kick actions issued since are none while
`now ≤ t0 + K`, and exactly one, at `t0 + K`, once the clock has passed it. -/
theorem tracked_player_actions_on_time (options : Options) (steamID : String) (s : State)
    (events : List Event)
    (hw : 1 ≤ warningInterval options ∧ warningInterval options ≤ 2147483647)
    (hk : 1 ≤ kickTimeout options ∧ kickTimeout options ≤ 2147483647)
    (hs : readyToTrack steamID s = true)
    (hev : onTime options steamID
      (visitPlayer options s { steamID := steamID, squadID := none }) events = true) :
    ∃ (j : Nat) (c : Bool),
      warnsFor (run options (visitPlayer options s { steamID := steamID, squadID := none })
          events) steamID
        = warnsFor s steamID ++ (List.range' 1 j).map
            (fun k => Action.warn (s.now + k * (warningInterval options).toNat) steamID
              (warnMessage options (s.now + k * (warningInterval options).toNat) s.now))
      ∧ kicksFor (run options (visitPlayer options s { steamID := steamID, squadID := none })
          events) steamID
        = kicksFor s steamID ++
          (if c then [.kick (s.now + (kickTimeout options).toNat) steamID options.kickMessage]
            else [])
      ∧ s.now + j * (warningInterval options).toNat
          ≤ (run options (visitPlayer options s { steamID := steamID, squadID := none })
              events).now
      ∧ (run options (visitPlayer options s { steamID := steamID, squadID := none })
              events).now ≤ s.now + (j + 1) * (warningInterval options).toNat
      ∧ (c = false →
          (run options (visitPlayer options s { steamID := steamID, squadID := none })
              events).now ≤ s.now + (kickTimeout options).toNat)
      ∧ (c = true →
          s.now + (kickTimeout options).toNat
            ≤ (run options (visitPlayer options s { steamID := steamID, squadID := none })
                events).now) := by
  have hdw : warnDelay options = (warningInterval options).toNat := by
    unfold warnDelay timerDelay
    rw [if_pos hw]
  have hdk : kickDelay options = (kickTimeout options).toNat := by
    unfold kickDelay timerDelay
    rw [if_pos hk]
  obtain ⟨j, c, h1, h2, h3, h4, h5, h6⟩ := onTime_run_actions options steamID s events hs hev
  refine ⟨j, c, ?_, ?_, ?_, ?_, ?_, ?_⟩
  · rw [h1]
    congr 1
    apply List.map_congr_left
    intro k _
    unfold warnAction
    rw [hdw]
  · rw [h2, hdk]
  · rw [← hdw]; exact h3
  · rw [← hdw]; exact h4
  · rw [← hdk]; exact h5
  · rw [← hdk]; exact h6

/-- Witness for C13 (amended): the default options, "a" tracked by the first
reconciliation tick (clock 60000), and the on-time run `eventsPastKick`, which
takes the plugin from `trackedState` past the kick to clock 480000. -/
theorem tracked_player_actions_on_time_witness :
    readyToTrack "a" tickFiredState = true
    ∧ visitPlayer defaultOptions tickFiredState { steamID := "a", squadID := none }
        = trackedState
    ∧ onTime defaultOptions "a"
        (visitPlayer defaultOptions tickFiredState { steamID := "a", squadID := none })
        eventsPastKick = true
    ∧ ∃ (j : Nat) (c : Bool),
      warnsFor (run defaultOptions
          (visitPlayer defaultOptions tickFiredState { steamID := "a", squadID := none })
          eventsPastKick) "a"
        = warnsFor tickFiredState "a" ++ (List.range' 1 j).map
            (fun k => Action.warn
              (tickFiredState.now + k * (warningInterval defaultOptions).toNat) "a"
              (warnMessage defaultOptions
                (tickFiredState.now + k * (warningInterval defaultOptions).toNat)
                tickFiredState.now))
      ∧ kicksFor (run defaultOptions
          (visitPlayer defaultOptions tickFiredState { steamID := "a", squadID := none })
          eventsPastKick) "a"
        = kicksFor tickFiredState "a" ++
          (if c then [.kick (tickFiredState.now + (kickTimeout defaultOptions).toNat) "a"
            defaultOptions.kickMessage] else [])
      ∧ tickFiredState.now + j * (warningInterval defaultOptions).toNat
          ≤ (run defaultOptions
              (visitPlayer defaultOptions tickFiredState { steamID := "a", squadID := none })
              eventsPastKick).now
      ∧ (run defaultOptions
              (visitPlayer defaultOptions tickFiredState { steamID := "a", squadID := none })
              eventsPastKick).now
          ≤ tickFiredState.now + (j + 1) * (warningInterval defaultOptions).toNat
      ∧ (c = false →
          (run defaultOptions
              (visitPlayer defaultOptions tickFiredState { steamID := "a", squadID := none })
              eventsPastKick).now
            ≤ tickFiredState.now + (kickTimeout defaultOptions).toNat)
      ∧ (c = true →
          tickFiredState.now + (kickTimeout defaultOptions).toNat
            ≤ (run defaultOptions
                (visitPlayer defaultOptions tickFiredState { steamID := "a", squadID := none })
                eventsPastKick).now) :=
  ⟨by decide, by decide, by decide,
    tracked_player_actions_on_time defaultOptions "a" tickFiredState eventsPastKick
      (by decide) (by decide) (by decide) (by decide)⟩

/-- C16. Let the warn interval lie between 1 and 2^31 - 1 ms, let line 103 start
tracking `steamID` at clock `trackStart = s.now`, and let the timers of the
plugin then fire on time while no roster shows `steamID` in a squad. Then the
`k`-th warning issued for `steamID`, for every `k` from 1 to the number `j`
issued so far, is issued at `trackStart + k * warningInterval` and shows the
minutes and seconds of `kickTimeout - k * warningInterval`: the remaining time
is measured from the original `trackStart` at every firing. With the default
options the first warning of "a" is the warning message followed by " - 5:30". -/
theorem warn_remaining_from_trackStart (options : Options) (steamID : String) (s : State)
    (events : List Event)
    (hw : 1 ≤ warningInterval options ∧ warningInterval options ≤ 2147483647)
    (hs : readyToTrack steamID s = true)
    (hev : onTime options steamID
      (visitPlayer options s { steamID := steamID, squadID := none }) events = true) :
    (∃ j : Nat,
      warnsFor (run options (visitPlayer options s { steamID := steamID, squadID := none })
          events) steamID
        = warnsFor s steamID ++ (List.range' 1 j).map
            (fun k => Action.warn (s.now + k * (warningInterval options).toNat) steamID
              (options.warningMessage ++ " - "
                ++ toString (toInt32
                    ((kickTimeout options - (k : Int) * warningInterval options).tdiv 60000))
                ++ ":"
                ++ toString
                    ((kickTimeout options - (k : Int) * warningInterval options).tmod 60000
                      / 1000)))
      ∧ s.now + j * (warningInterval options).toNat
          ≤ (run options (visitPlayer options s { steamID := steamID, squadID := none })
              events).now
      ∧ (run options (visitPlayer options s { steamID := steamID, squadID := none })
              events).now ≤ s.now + (j + 1) * (warningInterval options).toNat)
    ∧ warnsFor (run defaultOptions trackedState [.fire 2 loneServer]) "a"
        = [.warn 90000 "a" (defaultOptions.warningMessage ++ " - 5:30")] := by
  have hdw : warnDelay options = (warningInterval options).toNat := by
    unfold warnDelay timerDelay
    rw [if_pos hw]
  have hcast : ((warnDelay options : Nat) : Int) = warningInterval options :=
    timerDelay_of_range _ hw
  refine ⟨?_, by decide⟩
  obtain ⟨j, c, h1, -, h3, h4, -, -⟩ := onTime_run_actions options steamID s events hs hev
  refine ⟨j, ?_, by rw [← hdw]; exact h3, by rw [← hdw]; exact h4⟩
  rw [h1]
  congr 1
  apply List.map_congr_left
  intro k _
  unfold warnAction
  rw [warnMessage_eq, msLeft_after_periods, hcast, hdw]

/-- Witness for C16: the default options, "a" tracked by the first
reconciliation tick (clock 60000), and the on-time run `eventsToKick`, in which
eleven warnings are issued before the kick. -/
theorem warn_remaining_from_trackStart_witness :
    readyToTrack "a" tickFiredState = true
    ∧ onTime defaultOptions "a"
        (visitPlayer defaultOptions tickFiredState { steamID := "a", squadID := none })
        eventsToKick = true
    ∧ (∃ j : Nat,
      warnsFor (run defaultOptions
          (visitPlayer defaultOptions tickFiredState { steamID := "a", squadID := none })
          eventsToKick) "a"
        = warnsFor tickFiredState "a" ++ (List.range' 1 j).map
            (fun k => Action.warn
              (tickFiredState.now + k * (warningInterval defaultOptions).toNat) "a"
              (defaultOptions.warningMessage ++ " - "
                ++ toString (toInt32
                    ((kickTimeout defaultOptions
                      - (k : Int) * warningInterval defaultOptions).tdiv 60000))
                ++ ":"
                ++ toString
                    ((kickTimeout defaultOptions
                      - (k : Int) * warningInterval defaultOptions).tmod 60000 / 1000)))
      ∧ tickFiredState.now + j * (warningInterval defaultOptions).toNat
          ≤ (run defaultOptions
              (visitPlayer defaultOptions tickFiredState { steamID := "a", squadID := none })
              eventsToKick).now
      ∧ (run defaultOptions
              (visitPlayer defaultOptions tickFiredState { steamID := "a", squadID := none })
              eventsToKick).now
          ≤ tickFiredState.now + (j + 1) * (warningInterval defaultOptions).toNat)
    ∧ warnsFor (run defaultOptions trackedState [.fire 2 loneServer]) "a"
        = [.warn 90000 "a" (defaultOptions.warningMessage ++ " - 5:30")] :=
  ⟨by decide, by decide,
    warn_remaining_from_trackStart defaultOptions "a" tickFiredState eventsToKick
      (by decide) (by decide) (by decide)⟩

/-! ## Minutes and seconds of the warning, computed on doubles -/

theorem roundHalfEven_le_of_le_int (r : ℚ) (n : ℤ) (h : r ≤ n) : roundHalfEven r ≤ n := by
  have hfl : (⌊r⌋ : ℚ) ≤ r := Int.floor_le r
  have hfn : ⌊r⌋ ≤ n := by exact_mod_cast hfl.trans h
  unfold roundHalfEven
  split
  · exact hfn
  · rename_i h1
    have hlt : (⌊r⌋ : ℚ) < n := by linarith
    have hlt' : ⌊r⌋ < n := by exact_mod_cast hlt
    split
    · omega
    · split <;> omega

theorem int_le_roundHalfEven (r : ℚ) (n : ℤ) (h : (n : ℚ) ≤ r) : n ≤ roundHalfEven r := by
  have hfn : n ≤ ⌊r⌋ := Int.le_floor.2 h
  unfold roundHalfEven
  split
  · exact hfn
  · split
    · omega
    · split <;> omega

theorem roundDouble_pos_eq (y : ℚ) (hy : 0 < y) :
    ∃ s : ℚ, 0 < s ∧ (2 : ℚ) ^ 52 ≤ y * s
      ∧ roundDouble y = (roundHalfEven (y * s) : ℚ) * s⁻¹
      ∧ ∀ (N j : ℕ), N < 2 ^ 53 →
          (∃ M : ℤ, (N : ℚ) / 2 ^ j * s = M) ∨ (N : ℚ) / 2 ^ j * s < 2 ^ 52 := by
  have h2 : (2 : ℚ) ≠ 0 := by norm_num
  have habs : |y| = y := abs_of_pos hy
  have hlog : ((2 : ℕ) : ℚ) ^ Int.log 2 y ≤ y := Int.zpow_log_le_self (by norm_num) hy
  rw [Nat.cast_ofNat] at hlog
  refine ⟨(2 : ℚ) ^ (52 - Int.log 2 y), zpow_pos (by norm_num) _, ?_, ?_, ?_⟩
  · have : (2 : ℚ) ^ (52 : ℕ) = (2 : ℚ) ^ Int.log 2 y * (2 : ℚ) ^ (52 - Int.log 2 y) := by
      rw [← zpow_add₀ h2, ← zpow_natCast]
      congr 1
      push_cast
      ring
    rw [this]
    exact mul_le_mul_of_nonneg_right hlog (le_of_lt (zpow_pos (by norm_num) _))
  · unfold roundDouble
    rw [if_neg (ne_of_gt hy), habs, ← zpow_neg]
    congr 2
    ring
  · intro N j hN
    by_cases hc : (j : ℤ) ≤ 52 - Int.log 2 y
    · left
      obtain ⟨k, hk⟩ : ∃ k : ℕ, 52 - Int.log 2 y = (j : ℤ) + (k : ℤ) :=
        ⟨(52 - Int.log 2 y - j).toNat, by omega⟩
      refine ⟨(N : ℤ) * 2 ^ k, ?_⟩
      rw [hk, zpow_add₀ h2, zpow_natCast, zpow_natCast]
      push_cast
      field_simp
      ring
    · right
      have hle : (2 : ℚ) ^ (52 - Int.log 2 y) ≤ (2 : ℚ) ^ ((j : ℤ) - 1) :=
        zpow_le_zpow_right₀ (by norm_num) (by omega)
      have hj : (0 : ℚ) < 2 ^ j := by positivity
      have hN' : (N : ℚ) < 2 ^ 53 := by exact_mod_cast hN
      have hdiv : (0 : ℚ) ≤ (N : ℚ) / 2 ^ j := by positivity
      calc (N : ℚ) / 2 ^ j * (2 : ℚ) ^ (52 - Int.log 2 y)
          ≤ (N : ℚ) / 2 ^ j * (2 : ℚ) ^ ((j : ℤ) - 1) := mul_le_mul_of_nonneg_left hle hdiv
        _ = (N : ℚ) / 2 := by
            rw [zpow_sub₀ h2, zpow_natCast, zpow_one]
            field_simp
        _ < 2 ^ 52 := by linarith

theorem roundDouble_between (y : ℚ) (hy : 0 ≤ y) (N j : ℕ) (hN : N < 2 ^ 53) :
    (y ≤ (N : ℚ) / 2 ^ j → roundDouble y ≤ (N : ℚ) / 2 ^ j)
    ∧ ((N : ℚ) / 2 ^ j ≤ y → (N : ℚ) / 2 ^ j ≤ roundDouble y) := by
  rcases hy.eq_or_lt with h0 | hpos
  · subst h0
    have hz : roundDouble 0 = 0 := by simp [roundDouble]
    rw [hz]
    exact ⟨fun h => h, fun h => h⟩
  · obtain ⟨s, hs, h52, hrd, hrep⟩ := roundDouble_pos_eq y hpos
    have hsi : 0 < s⁻¹ := inv_pos.2 hs
    rw [hrd]
    have hback : ∀ c : ℚ, c * s * s⁻¹ = c := fun c => by field_simp
    have h52r : ((2 ^ 52 : ℤ) : ℚ) ≤ y * s := by push_cast; exact h52
    constructor
    · intro hle
      have hr : y * s ≤ (N : ℚ) / 2 ^ j * s := mul_le_mul_of_nonneg_right hle hs.le
      rcases hrep N j hN with ⟨M, hM⟩ | hlt
      · have := roundHalfEven_le_of_le_int (y * s) M (hM ▸ hr)
        have hc : ((roundHalfEven (y * s) : ℤ) : ℚ) ≤ (M : ℚ) := by exact_mod_cast this
        calc (roundHalfEven (y * s) : ℚ) * s⁻¹ ≤ (M : ℚ) * s⁻¹ :=
              mul_le_mul_of_nonneg_right hc hsi.le
          _ = (N : ℚ) / 2 ^ j := by rw [← hM, hback]
      · exact absurd (lt_of_le_of_lt (h52.trans hr) hlt) (lt_irrefl _)
    · intro hle
      have hr : (N : ℚ) / 2 ^ j * s ≤ y * s := mul_le_mul_of_nonneg_right hle hs.le
      have key : (N : ℚ) / 2 ^ j * s ≤ (roundHalfEven (y * s) : ℚ) := by
        rcases hrep N j hN with ⟨M, hM⟩ | hlt
        · have := int_le_roundHalfEven (y * s) M (hM ▸ hr)
          rw [hM]
          exact_mod_cast this
        · have := int_le_roundHalfEven (y * s) (2 ^ 52) h52r
          have hc : ((2 ^ 52 : ℤ) : ℚ) ≤ (roundHalfEven (y * s) : ℚ) := by exact_mod_cast this
          push_cast at hc
          linarith
      calc (N : ℚ) / 2 ^ j = (N : ℚ) / 2 ^ j * s * s⁻¹ := (hback _).symm
        _ ≤ (roundHalfEven (y * s) : ℚ) * s⁻¹ := mul_le_mul_of_nonneg_right key hsi.le

theorem roundDouble_between_int (y : ℚ) (hy : 0 ≤ y) (n : ℤ) (j : ℕ) (hn0 : 0 ≤ n)
    (hn : n < 2 ^ 53) :
    (y ≤ (n : ℚ) / 2 ^ j → roundDouble y ≤ (n : ℚ) / 2 ^ j)
    ∧ ((n : ℚ) / 2 ^ j ≤ y → (n : ℚ) / 2 ^ j ≤ roundDouble y) := by
  obtain ⟨N, rfl⟩ := Int.eq_ofNat_of_zero_le hn0
  have hN : N < 2 ^ 53 := by exact_mod_cast hn
  simpa using roundDouble_between y hy N j hN

theorem toInt32_of_range (a : ℤ) (h0 : 0 ≤ a) (h1 : a < 2147483648) : toInt32 a = a := by
  unfold toInt32
  have : a % 4294967296 = a := by omega
  rw [this, if_pos h1]

theorem warn_time_double (x : ℤ) (h0 : 0 ≤ x) (hx : x < 2 ^ 31 * 60000) :
    warnMinutes x = x / 60000 ∧ warnSeconds x = x / 1000 % 60 := by
  have hx' : x < 128849018880000 := by norm_num at hx; exact hx
  -- integer facts
  have ha0 : 0 ≤ x / 60000 := by omega
  have ha1 : x / 60000 < 2147483648 := by omega
  have hb0 : 0 ≤ x / 1000 := by omega
  have hbm : x / 1000 % 60 = x / 1000 - 60 * (x / 60000) := by omega
  have hal : 60000 * (x / 60000) ≤ x := by omega
  have hau : x ≤ 60000 * (x / 60000) + 59999 := by omega
  have hbl : 1000 * (x / 1000) ≤ x := by omega
  have hbu : x ≤ 1000 * (x / 1000) + 999 := by omega
  generalize x / 60000 = a at *
  generalize x / 1000 = b at *
  -- the quotient by 1000
  have hy0 : (0 : ℚ) ≤ (x : ℚ) / 1000 := by
    have : (0 : ℚ) ≤ (x : ℚ) := by exact_mod_cast h0
    positivity
  have hal' : (60000 : ℚ) * a ≤ x := by exact_mod_cast hal
  have hau' : (x : ℚ) ≤ 60000 * a + 59999 := by exact_mod_cast hau
  have hbl' : (1000 : ℚ) * b ≤ x := by exact_mod_cast hbl
  have hbu' : (x : ℚ) ≤ 1000 * b + 999 := by exact_mod_cast hbu
  have e1 := (roundDouble_between_int ((x : ℚ) / 1000) hy0 b 0 hb0 (by omega)).2
    (by rw [pow_zero, div_one, le_div_iff₀ (by norm_num)]; linarith)
  have e2 := (roundDouble_between_int ((x : ℚ) / 1000) hy0 ((b + 1) * 1024 - 1) 10
    (by omega) (by omega)).1
    (by rw [div_le_div_iff₀ (by norm_num) (by norm_num)]; push_cast; linarith)
  have e3 := (roundDouble_between_int ((x : ℚ) / 1000) hy0 (60 * a) 0 (by omega)
    (by omega)).2
    (by rw [pow_zero, div_one, le_div_iff₀ (by norm_num)]; push_cast; linarith)
  have e4 := (roundDouble_between_int ((x : ℚ) / 1000) hy0 ((60 * a + 60) * 1024 - 1) 10
    (by omega) (by omega)).1
    (by rw [div_le_div_iff₀ (by norm_num) (by norm_num)]; push_cast; linarith)
  rw [pow_zero, div_one] at e1 e3
  push_cast at e1 e2 e3 e4
  generalize hy1 : roundDouble ((x : ℚ) / 1000) = y1 at e1 e2 e3 e4
  have ha0' : (0 : ℚ) ≤ a := by exact_mod_cast ha0
  have hy1nn : (0 : ℚ) ≤ y1 := by linarith
  -- the quotient by 60
  have hz0 : (0 : ℚ) ≤ y1 / 60 := by positivity
  have f1 := (roundDouble_between_int (y1 / 60) hz0 a 0 ha0 (by omega)).2
    (by rw [pow_zero, div_one, le_div_iff₀ (by norm_num)]; linarith)
  have f2 := (roundDouble_between_int (y1 / 60) hz0 ((a + 1) * 65536 - 1) 16
    (by omega) (by omega)).1
    (by
      rw [div_le_div_iff₀ (by norm_num) (by norm_num)]
      push_cast
      have h2 : y1 * 1024 ≤ (60 * (a : ℚ) + 60) * 1024 - 1 := by
        have := e4
        rw [le_div_iff₀ (by norm_num)] at this
        norm_num at this ⊢
        linarith
      norm_num
      linarith)
  rw [pow_zero, div_one] at f1
  push_cast at f2
  constructor
  · unfold warnMinutes jsDiv
    rw [hy1]
    generalize roundDouble (y1 / 60) = z1 at f1 f2
    have hz1 : (0 : ℚ) ≤ z1 := by linarith
    have hfloor : ⌊z1⌋ = a := by
      rw [Int.floor_eq_iff]
      refine ⟨f1, ?_⟩
      have : ((a + 1 : ℚ) * 65536 - 1) / 2 ^ 16 < a + 1 := by
        rw [div_lt_iff₀ (by norm_num)]; norm_num
      linarith
    unfold truncate
    rw [if_pos hz1, hfloor]
    exact toInt32_of_range a ha0 ha1
  · unfold warnSeconds jsDiv
    rw [hy1, hbm]
    unfold jsRem truncate
    rw [if_pos hz0]
    have e2' : y1 < b + 1 := by
      have : ((b + 1 : ℚ) * 1024 - 1) / 2 ^ 10 < b + 1 := by
        rw [div_lt_iff₀ (by norm_num)]; norm_num
      linarith
    have e4' : y1 < 60 * a + 60 := by
      have : ((60 * (a : ℚ) + 60) * 1024 - 1) / 2 ^ 10 < 60 * a + 60 := by
        rw [div_lt_iff₀ (by norm_num)]; norm_num
      linarith
    have hfloor : ⌊y1 / 60⌋ = a := by
      rw [Int.floor_eq_iff]
      constructor
      · rw [le_div_iff₀ (by norm_num)]; linarith
      · rw [div_lt_iff₀ (by norm_num)]; linarith
    rw [hfloor, Int.floor_eq_iff]
    push_cast
    constructor <;> linarith

/-- C15. For every integer `msLeft` with `0 ≤ msLeft < 2^31 * 60000`, the
minutes and seconds the warn callback computes on doubles are
`floor(msLeft / 60000)` and `floor(msLeft / 1000) mod 60`, so the seconds lie
in `0 .. 59` and `60 * min + sec = floor(msLeft / 1000)`; they agree with the
integer expressions `warnMessage` uses. -/
theorem warn_minutes_seconds (msLeft : Int) (h0 : 0 ≤ msLeft) (h1 : msLeft < 2 ^ 31 * 60000) :
    warnMinutes msLeft = msLeft / 60000
    ∧ warnSeconds msLeft = msLeft / 1000 % 60
    ∧ 0 ≤ warnSeconds msLeft
    ∧ warnSeconds msLeft < 60
    ∧ 60 * warnMinutes msLeft + warnSeconds msLeft = msLeft / 1000
    ∧ toInt32 (msLeft.tdiv 60000) = warnMinutes msLeft
    ∧ msLeft.tmod 60000 / 1000 = warnSeconds msLeft := by
  obtain ⟨hmin, hsec⟩ := warn_time_double msLeft h0 h1
  have hx : msLeft < 128849018880000 := by norm_num at h1; exact h1
  rw [hmin, hsec, Int.tdiv_eq_ediv h0 (by decide), Int.tmod_eq_emod h0 (by decide)]
  refine ⟨rfl, rfl, by omega, by omega, by omega, ?_, by omega⟩
  exact toInt32_of_range _ (by omega) (by omega)

/-- Witness for C15: 330000 ms left, the value at the first default warning. -/
theorem warn_minutes_seconds_witness :
    warnMinutes 330000 = 330000 / 60000
    ∧ warnSeconds 330000 = 330000 / 1000 % 60
    ∧ 0 ≤ warnSeconds 330000
    ∧ warnSeconds 330000 < 60
    ∧ 60 * warnMinutes 330000 + warnSeconds 330000 = 330000 / 1000
    ∧ toInt32 ((330000 : Int).tdiv 60000) = warnMinutes 330000
    ∧ (330000 : Int).tmod 60000 / 1000 = warnSeconds 330000 :=
  warn_minutes_seconds 330000 (by decide) (by decide)

end AutoKickAFK
